import Mathlib

/-!
Verification of the job-execution substrate of the video service.

The Python sources are modelled by a shallow embedding:

* a database row becomes a Lean structure, and an UPDATE on the row with a
  given id becomes a pure function on that structure (the claims under
  study are all single-row properties);
* `datetime.utcnow()` is an external input, passed as an explicit
  timestamp argument of type Nat;
* Python dict truthiness (`if error_message:`, `if output_data:`) is
  modelled explicitly: an empty string or empty association list counts
  as falsy;
* job handlers, which run external tools, are opaque parameters that
  either return an output dict or raise (an exception carrying a message).
-/

namespace VideoSrv

/-- Row of the jobs table (src/database/schema.py, src/database/models.py).
The input payload type is a parameter so that job types with structured
input (for example trim) can reuse the model. -/
structure JobRow (α : Type) where
  id : String
  jobType : String
  status : String
  priority : Int
  projectId : Option String
  videoId : Option String
  inputData : Option α
  outputData : Option (List (String × String))
  progress : Int
  errorMessage : Option String
  retryCount : Nat
  maxRetries : Nat
  createdAt : Nat
  startedAt : Option Nat
  completedAt : Option Nat
deriving DecidableEq, Repr

/-- Job.create (src/database/models.py): INSERT supplying id, type,
status=pending, priority, project_id, video_id, input_data; the remaining
columns take the schema defaults progress=0, retry_count=0, max_retries=3
(src/database/schema.py). -/
def Job.create (α : Type) (id jobType : String) (projectId videoId : Option String)
    (inputData : Option α) (priority : Int) (createdAt : Nat) : JobRow α :=
  { id := id
    jobType := jobType
    status := "pending"
    priority := priority
    projectId := projectId
    videoId := videoId
    inputData := inputData
    outputData := none
    progress := 0
    errorMessage := none
    retryCount := 0
    maxRetries := 3
    createdAt := createdAt
    startedAt := none
    completedAt := none }

/-- Job.update_status (src/database/models.py lines 452-483), acting on the
row with the given id.  The updates dict is built from status, then
progress (if not None), then error_message (if truthy: None and "" are
skipped), then output_data (if truthy: None and the empty dict are
skipped).  The Python guard for started_at is
`status == RUNNING and not updates.get(started_at)`; the updates dict
never contains the key started_at at that point, so the second conjunct is
always true and started_at is written on every running update.
completed_at is written on every terminal update. -/
def Job.update_status {α : Type} (job : JobRow α) (status : String)
    (progress : Option Int) (error_message : Option String)
    (output_data : Option (List (String × String))) (now : Nat) : JobRow α :=
  let j1 := { job with status := status }
  let j2 := match progress with
    | some p => { j1 with progress := p }
    | none => j1
  let j3 := match error_message with
    | some e => if e = "" then j2 else { j2 with errorMessage := some e }
    | none => j2
  let j4 := match output_data with
    | some o => if o = [] then j3 else { j3 with outputData := some o }
    | none => j3
  if status = "running" then
    { j4 with startedAt := some now }
  else if status = "completed" ∨ status = "failed" ∨ status = "cancelled" then
    { j4 with completedAt := some now }
  else
    j4

/-- Job.cancel (src/database/models.py): refuses when the row is already in
a terminal state, otherwise delegates to update_status with status
cancelled.  Returns the Python boolean result together with the row. -/
def Job.cancel {α : Type} (job : JobRow α) (now : Nat) : Bool × JobRow α :=
  if job.status = "completed" ∨ job.status = "failed" ∨ job.status = "cancelled" then
    (false, job)
  else
    (true, Job.update_status job "cancelled" none none none now)

/-- Job.retry (src/database/models.py lines 508-527): refuses when
retry_count has reached max_retries; otherwise a single UPDATE sets
status=pending, retry_count=retry_count+1, error_message=NULL and touches
no other column. -/
def Job.retry {α : Type} (job : JobRow α) : Bool × JobRow α :=
  if job.retryCount ≥ job.maxRetries then
    (false, job)
  else
    (true, { job with
               status := "pending"
               retryCount := job.retryCount + 1
               errorMessage := none })

/-- update_job_progress (src/task_queue/job_queue.py lines 292-309): builds
output_data as an empty dict, adds progress_message when the message is
truthy, and calls Job.update_status with status running. -/
def update_job_progress {α : Type} (job : JobRow α) (progress : Int)
    (message : Option String) (now : Nat) : JobRow α :=
  let output_data : List (String × String) :=
    match message with
    | some m => if m = "" then [] else [("progress_message", m)]
    | none => []
  Job.update_status job "running" (some progress) none (some output_data) now

/-- Outcome of invoking a job handler: the returned output dict on
success, or the message of the raised exception. -/
inductive HandlerOutcome where
  | success (output : List (String × String))
  | failure (msg : String)

/-- Exception branch of JobWorker.process_job: record status failed with
the message plus traceback (always a non-empty string), then re-fetch the
row and, if retry budget remains, call Job.retry. -/
def processFail {α : Type} (j : JobRow α) (msg : String) (t : Nat) : JobRow α :=
  let j2 := Job.update_status j "failed" none (some (msg ++ "\ntraceback")) none t
  if j2.retryCount < j2.maxRetries then (Job.retry j2).2 else j2

/-- JobWorker.process_job (src/task_queue/job_queue.py lines 54-116): skip
a cancelled job; otherwise set it running with progress 0, look up the
handler for its type (raising when absent), run the handler, and record
completed with progress 100 and the output, or take the exception branch.
tStart and tEnd are the wall-clock instants of the two status writes. -/
def process_job {α : Type} (job : JobRow α)
    (handlers : String → Option (JobRow α → HandlerOutcome))
    (tStart tEnd : Nat) : JobRow α :=
  if job.status = "cancelled" then job
  else
    let j1 := Job.update_status job "running" (some 0) none none tStart
    match handlers job.jobType with
    | none => processFail j1 ("No handler registered for job type: " ++ job.jobType) tEnd
    | some h =>
      match h job with
      | HandlerOutcome.success out =>
          Job.update_status j1 "completed" (some 100) none (some out) tEnd
      | HandlerOutcome.failure msg => processFail j1 msg tEnd

/-! ## Priority queue (src/task_queue/job_queue.py)

JobQueue.queue is a Python queue.PriorityQueue holding entries
(-priority, job_id); heapq pops the least entry under tuple order (first
the Int, then the job id string).  The heap is modelled as the list of
entries it contains, and a pop as extraction of the least entry. -/

/-- Python string comparison of two characters, by code point. -/
def charLtB (a b : Char) : Bool :=
  decide (a.toNat < b.toNat)

/-- Python string comparison: lexicographic by code point, a proper
prefix compares smaller. -/
def charListLtB : List Char → List Char → Bool
  | [], [] => false
  | [], _ :: _ => true
  | _ :: _, [] => false
  | a :: as, b :: bs =>
    if charLtB a b then true
    else if charLtB b a then false
    else charListLtB as bs

/-- Python string less-than on Lean strings. -/
def strLtB (s t : String) : Bool :=
  charListLtB s.data t.data

/-- Strict order on heap entries: Python tuple comparison on
(-priority, job_id). -/
def entryLt (a b : Int × String) : Bool :=
  decide (a.1 < b.1) || (decide (a.1 = b.1) && strLtB a.2 b.2)

/-- Least entry of the heap, as popped by queue.PriorityQueue.get. -/
def minEntry : List (Int × String) → Option (Int × String)
  | [] => none
  | e :: es => some (es.foldl (fun acc x => if entryLt x acc then x else acc) e)

/-- Drain the heap, listing job ids in pop order.  The fuel argument is
the number of entries, which bounds the number of pops. -/
def popOrderAux : Nat → List (Int × String) → List String
  | 0, _ => []
  | Nat.succ fuel, q =>
    match minEntry q with
    | none => []
    | some e => e.2 :: popOrderAux fuel (q.erase e)

/-- Job ids of a heap in pop order. -/
def popOrder (q : List (Int × String)) : List String :=
  popOrderAux q.length q

/-- Queue half of JobQueue.submit_job (src/task_queue/job_queue.py lines
187-217): push (-priority, job_id) onto the heap.  The database half
creates the pending row via Job.create. -/
def queueSubmit (q : List (Int × String)) (priority : Int) (jobId : String) :
    List (Int × String) :=
  q ++ [(-priority, jobId)]

/-! ## Video path resolution (src/task_queue/handlers.py lines 31-44) -/

/-- The fields of a videos row that get_video_path reads. -/
structure VideoRow where
  filename : String
  parentVideoId : Option String
deriving DecidableEq, Repr

/-- Config.UPLOAD_FOLDER (src/config.py): the uploads directory is named
downloads. -/
def UPLOAD_FOLDER : String := "downloads"

/-- Config.PROCESSED_FOLDER (src/config.py). -/
def PROCESSED_FOLDER : String := "processed"

/-- Legacy clip subfolder path: built only when parent_video_id is truthy
(None and the empty string are falsy in Python). -/
def clipSubfolderPath (video : VideoRow) : Option String :=
  match video.parentVideoId with
  | some pid =>
      if pid = "" then none
      else some (PROCESSED_FOLDER ++ "/clips_" ++ pid ++ "/" ++ video.filename)
  | none => none

/-- get_video_path (src/task_queue/handlers.py lines 31-44).  The
filesystem is modelled as the list fs of existing paths, and
os.path.exists as membership in fs.  The source checks the processed
path first, then the legacy clips subfolder, and otherwise returns the
uploads path without an existence check. -/
def get_video_path (fs : List String) (video : VideoRow) : String :=
  let upload_path := UPLOAD_FOLDER ++ "/" ++ video.filename
  let processed_path := PROCESSED_FOLDER ++ "/" ++ video.filename
  let clip_subfolder_path := clipSubfolderPath video
  if processed_path ∈ fs then processed_path
  else
    match clip_subfolder_path with
    | some c => if c ∈ fs then c else upload_path
    | none => upload_path

/-! ## Trim submission (src/routes/api.py lines 280-303) -/

/-- The input_data dict of a trim job. -/
structure TrimInput where
  start_time : Int
  end_time : Int
  title : String
deriving DecidableEq, Repr

/-- Body of a POST trim request; every field may be absent. -/
structure TrimReq where
  start_time : Option Int
  end_time : Option Int
  title : Option String
deriving DecidableEq, Repr

/-- trim_video_route (src/routes/api.py lines 280-303).  The request body
defaults to the empty dict, start_time defaults to 0, end_time to 10 and
title to Clip; a missing video yields a 404 with no job; otherwise
submit_job creates a pending trim job (priority defaults to 0) and pushes
it onto the queue.  There is no validation of the time range.  Returns
the created row (none on 404) and the new heap. -/
def trim_video_route (q : List (Int × String)) (projectId videoId : String)
    (videoFound : Bool) (req : Option TrimReq) (newJobId : String) (now : Nat) :
    Option (JobRow TrimInput) × List (Int × String) :=
  let data : TrimReq := req.getD { start_time := none, end_time := none, title := none }
  let start := data.start_time.getD 0
  let stop := data.end_time.getD 10
  let title := data.title.getD "Clip"
  if videoFound then
    let job := Job.create TrimInput newJobId "trim" (some projectId) (some videoId)
      (some { start_time := start, end_time := stop, title := title }) 0 now
    (some job, queueSubmit q 0 newJobId)
  else
    (none, q)

/-! ## Job lifecycle as a transition system

The status and progress writes that reach one job row, each expressed
through the model functions above: the worker transitions and
update_job_progress of the queue layer, Job.cancel and Job.retry of the
API layer, and the legacy path the service layer uses from inside the
handlers — utils/helpers.thread_safe_status_update (src/utils/helpers.py
lines 107-129), called directly by video_service.py and
caption_service.py with the job id, and from the rate-limited yt-dlp
progress hook helpers.update_progress (lines 136-154).  The legacy path
calls Job.update_status with a Python None status on a progress-only
update, which writes SQL NULL into the status column; since JobRow keeps
that column as a String, the transition state pairs the row with a
nullability flag.  The service loops pass some fractional percentages;
they are carried here as integers, which does not affect the bounds
claims. -/

/-- A word of a transcription segment, with start and end times in
milliseconds.  The source field named end is called stop here. -/
structure SrtWord where
  start : Nat
  stop : Nat
  word : List Char
deriving DecidableEq, Repr

/-- A transcription segment: start and end times in milliseconds, the
sentence text, and the per-word list used in word-level mode. -/
structure SrtSegment where
  start : Nat
  stop : Nat
  text : List Char
  words : List SrtWord
deriving DecidableEq, Repr

/-- Python str.strip: drop whitespace from both ends. -/
def stripChars (s : List Char) : List Char :=
  ((s.dropWhile Char.isWhitespace).reverse.dropWhile Char.isWhitespace).reverse

/-- Decimal digits of a natural number, most significant first; fuel is
any bound strictly above n. -/
def natDigitsAux : Nat → Nat → List Char
  | 0, _ => []
  | Nat.succ fuel, n =>
    if n < 10 then [Char.ofNat (48 + n)]
    else natDigitsAux fuel (n / 10) ++ [Char.ofNat (48 + n % 10)]

/-- Decimal representation of a natural number, as Python str builds it. -/
def natDigits (n : Nat) : List Char :=
  natDigitsAux (n + 1) n

/-- Python format spec 02: zero-pad to width at least 2.  Values of 100
or more keep all their digits. -/
def pad2 (n : Nat) : List Char :=
  if n < 10 then '0' :: natDigits n else natDigits n

/-- Python format spec 03: zero-pad to width at least 3. -/
def pad3 (n : Nat) : List Char :=
  if n < 10 then '0' :: '0' :: natDigits n
  else if n < 100 then '0' :: natDigits n
  else natDigits n

/-- format_ts of write_srt, on a time of ms milliseconds: with t = ms/1000
seconds, int(t // 3600) = ms / 3600000, int((t % 3600) // 60) =
ms % 3600000 / 60000, int(t % 60) = ms % 60000 / 1000 and
int((t - int(t)) * 1000) = ms % 1000. -/
def format_ts (ms : Nat) : List Char :=
  let hrs := ms / 3600000
  let mins := ms % 3600000 / 60000
  let secs := ms % 60000 / 1000
  let millis := ms % 1000
  pad2 hrs ++ [':'] ++ pad2 mins ++ [':'] ++ pad2 secs ++ [','] ++ pad3 millis

/-- The separator of a timestamp line. -/
def arrowSep : List Char := [' ', '-', '-', '>', ' ']

/-- A raw cue before the empty-text filter: times and stripped text. -/
structure RawCue where
  start : Nat
  stop : Nat
  text : List Char
deriving DecidableEq, Repr

/-- The iteration sequence of write_srt: in word-level mode one item per
word of each segment in order, with the word text stripped; otherwise one
item per segment with the segment text stripped. -/
def srtRawItems (segments : List SrtSegment) (word_level : Bool) : List RawCue :=
  if word_level then
    segments.flatMap (fun seg =>
      seg.words.map (fun w =>
        { start := w.start, stop := w.stop, text := stripChars w.word }))
  else
    segments.map (fun seg =>
      { start := seg.start, stop := seg.stop, text := stripChars seg.text })

/-- The line-emitting loop of write_srt: items with empty stripped text
are skipped (continue); each emitted cue appends the current index, the
timestamp line, the uppercased text and a blank line, then increments the
index. -/
def write_srt_aux : Nat → List RawCue → List (List Char)
  | _, [] => []
  | idx, c :: rest =>
    if c.text = [] then write_srt_aux idx rest
    else
      natDigits idx
        :: (format_ts c.start ++ arrowSep ++ format_ts c.stop)
        :: c.text.map Char.toUpper
        :: []
        :: write_srt_aux (idx + 1) rest

/-- write_srt (src/services/caption_service.py lines 21-55): the list of
lines written to the file (the file content is the newline join of these
lines).  The index starts at 1. -/
def write_srt (segments : List SrtSegment) (word_level : Bool) : List (List Char) :=
  write_srt_aux 1 (srtRawItems segments word_level)

/-- File content: the Python newline join of the lines. -/
def srtFileContent (lines : List (List Char)) : List Char :=
  (lines.intersperse ['\n']).flatten

/-- A digit character. -/
def isDigitChar (ch : Char) : Bool :=
  decide ('0' ≤ ch) && decide (ch ≤ '9')

/-- Shape check for one HH:MM:SS,mmm timestamp: exactly 12 characters,
with separators at positions 2, 5 and 8 and digits elsewhere. -/
def tsShapeOk (l : List Char) : Bool :=
  match l with
  | [a0, a1, s2, a3, a4, s5, a6, a7, s8, a9, a10, a11] =>
    isDigitChar a0 && isDigitChar a1 && decide (s2 = ':') &&
      isDigitChar a3 && isDigitChar a4 && decide (s5 = ':') &&
      isDigitChar a6 && isDigitChar a7 && decide (s8 = ',') &&
      isDigitChar a9 && isDigitChar a10 && isDigitChar a11
  | _ => false

/-- Shape check for a cue timing line: a well-shaped 12-character
timestamp, the arrow separator, and a second well-shaped timestamp. -/
def tsLineOk (l : List Char) : Bool :=
  match l with
  | a0 :: a1 :: a2 :: a3 :: a4 :: a5 :: a6 :: a7 :: a8 :: a9 :: a10 :: a11
      :: r0 :: r1 :: r2 :: r3 :: r4 :: rest =>
    tsShapeOk [a0, a1, a2, a3, a4, a5, a6, a7, a8, a9, a10, a11] &&
      decide ([r0, r1, r2, r3, r4] = arrowSep) && tsShapeOk rest
  | _ => false

/-- Well-formedness of an SRT line list, checked from a given starting
index: the lines decompose into blocks of four (index, timing line,
non-empty text, blank separator) with consecutive indices. -/
def srtLinesOk : Nat → List (List Char) → Bool
  | _, [] => true
  | i, ix :: ts :: text :: blank :: rest =>
    decide (ix = natDigits i) && tsLineOk ts && decide (text ≠ []) &&
      decide (blank = []) && srtLinesOk (i + 1) rest
  | _, _ => false

/-- Number of cues emitted for the given segments and mode: the items
whose stripped text is non-empty. -/
def srtCueCount (segments : List SrtSegment) (word_level : Bool) : Nat :=
  ((srtRawItems segments word_level).filter (fun c => c.text ≠ [])).length

/-- Number of words across all segments whose stripped text is
non-empty. -/
def nonEmptyWordCount (segments : List SrtSegment) : Nat :=
  ((segments.flatMap (fun seg => seg.words)).filter
    (fun w => stripChars w.word ≠ [])).length

/-- Every timestamp of every segment (and of every word) is below the
given millisecond bound. -/
def segTimesBelow (segments : List SrtSegment) (bound : Nat) : Prop :=
  ∀ seg ∈ segments, seg.start < bound ∧ seg.stop < bound ∧
    ∀ w ∈ seg.words, w.start < bound ∧ w.stop < bound

/-! ## JSON values and the Setting model (src/database/models.py lines 646-679)

Setting.set stores `json.dumps(value)` unless the value is a str, which is
stored verbatim; Setting.get always tries `json.loads` on the stored text
and falls back to the raw text.  The Python json library is external to
the repository, so it is modelled here: JSON values are the mutual
inductive below (null, booleans, integers, strings, arrays, objects;
floats are not modelled), dumps follows the default CPython rendering
(separators comma-space and colon-space, backslash and quote escaped;
escaping of control and non-ASCII characters is not modelled), and loads
is a recursive-descent parser for exactly that rendering. -/

mutual
inductive JsonValue where
  | jnull : JsonValue
  | jbool : Bool → JsonValue
  | jint : Int → JsonValue
  | jstr : List Char → JsonValue
  | jarr : JsonList → JsonValue
  | jobj : JsonObj → JsonValue
inductive JsonList where
  | nil : JsonList
  | cons : JsonValue → JsonList → JsonList
inductive JsonObj where
  | onil : JsonObj
  | ocons : List Char → JsonValue → JsonObj → JsonObj
end

/-- The opening-brace character, by code point. -/
def lbrace : Char := Char.ofNat 123

/-- The closing-brace character, by code point. -/
def rbrace : Char := Char.ofNat 125

/-- Python isinstance(value, str). -/
def JsonValue.isStr : JsonValue → Bool
  | JsonValue.jstr _ => true
  | _ => false

/-- JSON string escaping of one character: backslash and double quote are
escaped, everything else is kept. -/
def escapeChar (ch : Char) : List Char :=
  if ch = '\\' ∨ ch = '"' then ['\\', ch] else [ch]

/-- JSON string escaping. -/
def escapeString (s : List Char) : List Char :=
  (s.map escapeChar).flatten

/-- Decimal rendering of an integer, as Python str does. -/
def intChars (n : Int) : List Char :=
  if n < 0 then '-' :: natDigits n.natAbs else natDigits n.toNat

mutual
/-- json.dumps with CPython default separators. -/
def dumps : JsonValue → List Char
  | JsonValue.jnull => ['n', 'u', 'l', 'l']
  | JsonValue.jbool true => ['t', 'r', 'u', 'e']
  | JsonValue.jbool false => ['f', 'a', 'l', 's', 'e']
  | JsonValue.jint n => intChars n
  | JsonValue.jstr s => '"' :: (escapeString s ++ ['"'])
  | JsonValue.jarr l => '[' :: (dumpsList l ++ [']'])
  | JsonValue.jobj o => lbrace :: (dumpsObj o ++ [rbrace])
/-- Array elements joined by comma-space. -/
def dumpsList : JsonList → List Char
  | JsonList.nil => []
  | JsonList.cons v JsonList.nil => dumps v
  | JsonList.cons v (JsonList.cons w t) =>
      dumps v ++ [',', ' '] ++ dumpsList (JsonList.cons w t)
/-- Object fields joined by comma-space, each a quoted key, colon-space
and the value. -/
def dumpsObj : JsonObj → List Char
  | JsonObj.onil => []
  | JsonObj.ocons k v JsonObj.onil =>
      '"' :: (escapeString k ++ ['"', ':', ' ']) ++ dumps v
  | JsonObj.ocons k v (JsonObj.ocons k2 v2 t) =>
      '"' :: (escapeString k ++ ['"', ':', ' ']) ++ dumps v ++ [',', ' ']
        ++ dumpsObj (JsonObj.ocons k2 v2 t)
end

/-- Consume an expected literal character sequence. -/
def parseLit : List Char → List Char → Option (List Char)
  | [], input => some input
  | c :: cs, input =>
    match input with
    | d :: rest => if d = c then parseLit cs rest else none
    | [] => none

/-- Parse a JSON string body after the opening quote, undoing the
escaping, up to the closing quote. -/
def parseStringBody : List Char → Option (List Char × List Char)
  | [] => none
  | c :: rest =>
    if c = '"' then some ([], rest)
    else if c = '\\' then
      match rest with
      | [] => none
      | d :: rest2 =>
        match parseStringBody rest2 with
        | some p => some (d :: p.1, p.2)
        | none => none
    else
      match parseStringBody rest with
      | some p => some (c :: p.1, p.2)
      | none => none

/-- Consume a maximal run of digits, accumulating the value. -/
def parseDigitsGo (acc : Nat) : List Char → Nat × List Char
  | [] => (acc, [])
  | c :: rest =>
    if isDigitChar c then parseDigitsGo (acc * 10 + (c.toNat - 48)) rest
    else (acc, c :: rest)

/-- Parse a natural number (at least one digit). -/
def parseNat (input : List Char) : Option (Nat × List Char) :=
  match input with
  | c :: rest =>
    if isDigitChar c then some (parseDigitsGo (c.toNat - 48) rest) else none
  | [] => none

/-- Parse an optionally negated integer. -/
def parseIntChars (input : List Char) : Option (Int × List Char) :=
  match input with
  | [] => none
  | c :: rest =>
    if c = '-' then
      match parseNat rest with
      | some p => some (-(p.1 : Int), p.2)
      | none => none
    else
      match parseNat (c :: rest) with
      | some p => some ((p.1 : Int), p.2)
      | none => none

mutual
/-- Recursive-descent parser for one JSON value could consume the given
fuel; it dispatches on the first character. -/
def parseVal : Nat → List Char → Option (JsonValue × List Char)
  | 0, _ => none
  | Nat.succ fuel, input =>
    match input with
    | [] => none
    | c :: rest =>
      if c = 'n' then
        match parseLit ['u', 'l', 'l'] rest with
        | some r => some (JsonValue.jnull, r)
        | none => none
      else if c = 't' then
        match parseLit ['r', 'u', 'e'] rest with
        | some r => some (JsonValue.jbool true, r)
        | none => none
      else if c = 'f' then
        match parseLit ['a', 'l', 's', 'e'] rest with
        | some r => some (JsonValue.jbool false, r)
        | none => none
      else if c = '"' then
        match parseStringBody rest with
        | some p => some (JsonValue.jstr p.1, p.2)
        | none => none
      else if c = '[' then
        match rest with
        | [] => none
        | d :: r2 =>
          if d = ']' then some (JsonValue.jarr JsonList.nil, r2)
          else
            match parseItems fuel (d :: r2) with
            | some (l, r3) =>
              match r3 with
              | e :: r4 => if e = ']' then some (JsonValue.jarr l, r4) else none
              | [] => none
            | none => none
      else if c = lbrace then
        match rest with
        | [] => none
        | d :: r2 =>
          if d = rbrace then some (JsonValue.jobj JsonObj.onil, r2)
          else
            match parseFields fuel (d :: r2) with
            | some (o, r3) =>
              match r3 with
              | e :: r4 => if e = rbrace then some (JsonValue.jobj o, r4) else none
              | [] => none
            | none => none
      else if c = '-' ∨ isDigitChar c then
        match parseIntChars (c :: rest) with
        | some p => some (JsonValue.jint p.1, p.2)
        | none => none
      else none
/-- Parse one or more comma-space separated values. -/
def parseItems : Nat → List Char → Option (JsonList × List Char)
  | 0, _ => none
  | Nat.succ fuel, input =>
    match parseVal fuel input with
    | some (v, rest) =>
      match rest with
      | c1 :: c2 :: r2 =>
        if c1 = ',' ∧ c2 = ' ' then
          match parseItems fuel r2 with
          | some (l, r3) => some (JsonList.cons v l, r3)
          | none => none
        else some (JsonList.cons v JsonList.nil, rest)
      | _ => some (JsonList.cons v JsonList.nil, rest)
    | none => none
/-- Parse one or more comma-space separated quoted-key colon-space value
fields. -/
def parseFields : Nat → List Char → Option (JsonObj × List Char)
  | 0, _ => none
  | Nat.succ fuel, input =>
    match input with
    | [] => none
    | c :: rest =>
      if c = '"' then
        match parseStringBody rest with
        | some kp =>
          match kp.2 with
          | d1 :: d2 :: r2 =>
            if d1 = ':' ∧ d2 = ' ' then
              match parseVal fuel r2 with
              | some (v, r3) =>
                match r3 with
                | e1 :: e2 :: r4 =>
                  if e1 = ',' ∧ e2 = ' ' then
                    match parseFields fuel r4 with
                    | some (o, r5) => some (JsonObj.ocons kp.1 v o, r5)
                    | none => none
                  else some (JsonObj.ocons kp.1 v JsonObj.onil, r3)
                | _ => some (JsonObj.ocons kp.1 v JsonObj.onil, r3)
              | none => none
            else none
          | _ => none
        | none => none
      else none
end

mutual
/-- Node count of a JSON value, used to bound the parser fuel. -/
def jsize : JsonValue → Nat
  | JsonValue.jnull => 1
  | JsonValue.jbool _ => 1
  | JsonValue.jint _ => 1
  | JsonValue.jstr _ => 1
  | JsonValue.jarr l => jsizeList l + 1
  | JsonValue.jobj o => jsizeObj o + 1
/-- Node count of an array body. -/
def jsizeList : JsonList → Nat
  | JsonList.nil => 0
  | JsonList.cons v t => jsize v + jsizeList t + 1
/-- Node count of an object body. -/
def jsizeObj : JsonObj → Nat
  | JsonObj.onil => 0
  | JsonObj.ocons _ v t => jsize v + jsizeObj t + 1
end

/-- json.loads: parse a complete value; trailing input is an error.
The fuel is an upper bound on the recursion depth; any value fitting in
the input is parsed before the fuel runs out. -/
def loads (input : List Char) : Option JsonValue :=
  match parseVal (input.length + 1) input with
  | some (v, []) => some v
  | _ => none

/-- Setting.set (src/database/models.py lines 664-679): a str value is
stored verbatim, any other value is stored as json.dumps(value); INSERT
OR REPLACE on the key.  The settings table is modelled as an association
list from key to the stored text. -/
def Setting.set (store : List (String × List Char)) (key : String)
    (value : JsonValue) : List (String × List Char) :=
  let text : List Char :=
    match value with
    | JsonValue.jstr s => s
    | v => dumps v
  (key, text) :: store.filter (fun kv => kv.1 ≠ key)

/-- Setting.get (src/database/models.py lines 646-662): fetch the stored
text for the key; when present, try json.loads and fall back to the raw
text on a parse error; when absent, the default (modelled as none) is
returned. -/
def Setting.get (store : List (String × List Char)) (key : String) :
    Option JsonValue :=
  match store.find? (fun kv => kv.1 = key) with
  | some kv =>
    match loads kv.2 with
    | some v => some v
    | none => some (JsonValue.jstr kv.2)
  | none => none

/-! ## Concrete rows used by counterexamples and witnesses -/

/-- A job that has completed: terminal status, both timestamps set. -/
def doneJob : JobRow Unit :=
  { id := "job-1", jobType := "trim", status := "completed", priority := 0,
    projectId := none, videoId := none, inputData := none, outputData := none,
    progress := 100, errorMessage := none, retryCount := 0, maxRetries := 3,
    createdAt := 1, startedAt := some 3, completedAt := some 5 }

/-- A fresh pending job whose type has no registered handler. -/
def mysteryJob : JobRow Unit :=
  { id := "job-2", jobType := "mystery", status := "pending", priority := 0,
    projectId := none, videoId := none, inputData := none, outputData := none,
    progress := 0, errorMessage := none, retryCount := 0, maxRetries := 3,
    createdAt := 1, startedAt := none, completedAt := none }

/-- A job that failed mid-attempt with budget left: progress 55, one
retry already used. -/
def failedJob : JobRow Unit :=
  { id := "job-3", jobType := "caption", status := "failed", priority := 0,
    projectId := none, videoId := none, inputData := none, outputData := none,
    progress := 55, errorMessage := some "boom", retryCount := 1, maxRetries := 3,
    createdAt := 1, startedAt := some 3, completedAt := some 5 }

/-- A fresh pending job with a registered type. -/
def plainJob : JobRow Unit :=
  { id := "job-4", jobType := "caption", status := "pending", priority := 0,
    projectId := none, videoId := none, inputData := none, outputData := none,
    progress := 0, errorMessage := none, retryCount := 0, maxRetries := 3,
    createdAt := 1, startedAt := none, completedAt := none }

/-- A transcription segment whose times are at 100 hours. -/
def seg100h : SrtSegment :=
  { start := 360000000, stop := 360000500, text := ['h', 'i'], words := [] }

/-- A short ordinary transcription segment. -/
def segShort : SrtSegment :=
  { start := 0, stop := 1500, text := ['h', 'i'], words := [] }

/-! ## Helper lemmas about Job.update_status -/

/-- Field decomposition of Job.update_status: the status column always
takes the requested value, progress follows the optional argument,
started_at is overwritten on every running update, completed_at on every
terminal update, and the remaining columns are untouched. -/
theorem update_status_fields {α : Type} (job : JobRow α) (s : String)
    (p : Option Int) (e : Option String) (o : Option (List (String × String)))
    (t : Nat) :
    (Job.update_status job s p e o t).status = s ∧
    (Job.update_status job s p e o t).progress =
      (match p with | some x => x | none => job.progress) ∧
    (Job.update_status job s p e o t).retryCount = job.retryCount ∧
    (Job.update_status job s p e o t).maxRetries = job.maxRetries ∧
    (Job.update_status job s p e o t).startedAt =
      (if s = "running" then some t else job.startedAt) ∧
    (Job.update_status job s p e o t).completedAt =
      (if s = "running" then job.completedAt
       else if s = "completed" ∨ s = "failed" ∨ s = "cancelled" then some t
       else job.completedAt) ∧
    (Job.update_status job s p e o t).id = job.id ∧
    (Job.update_status job s p e o t).jobType = job.jobType ∧
    (Job.update_status job s p e o t).priority = job.priority ∧
    (Job.update_status job s p e o t).createdAt = job.createdAt ∧
    (Job.update_status job s p e o t).inputData = job.inputData := by
  cases p <;> cases e <;> cases o <;>
    simp only [Job.update_status] <;> split_ifs <;> simp_all

/-- With retry budget left, the budget check plus Job.retry rewrite the
row to pending with the count incremented and the error cleared. -/
theorem retryStep_eq {α : Type} (j2 : JobRow α) (hb : j2.retryCount < j2.maxRetries) :
    (if j2.retryCount < j2.maxRetries then (Job.retry j2).2 else j2) =
      { j2 with status := "pending", retryCount := j2.retryCount + 1,
                errorMessage := none } := by
  rw [if_pos hb]
  simp only [Job.retry, if_neg (by omega : ¬ j2.retryCount ≥ j2.maxRetries)]

/-- Behaviour of the worker exception branch: with retry budget left the
row ends pending with the retry count incremented; without budget it
stays failed; in both cases completed_at was just stamped. -/
theorem processFail_spec {α : Type} (j : JobRow α) (msg : String) (t : Nat) :
    (j.retryCount < j.maxRetries →
      (processFail j msg t).status = "pending" ∧
      (processFail j msg t).retryCount = j.retryCount + 1 ∧
      (processFail j msg t).completedAt = some t ∧
      (processFail j msg t).progress = j.progress ∧
      (processFail j msg t).inputData = j.inputData ∧
      (processFail j msg t).priority = j.priority) ∧
    (¬ j.retryCount < j.maxRetries →
      (processFail j msg t).status = "failed" ∧
      (processFail j msg t).retryCount = j.retryCount ∧
      (processFail j msg t).completedAt = some t) := by
  obtain ⟨h1, h2, h3, h4, h5, h6, h7, h8, h9, h10, h11⟩ :=
    update_status_fields j "failed" none (some (msg ++ "\ntraceback")) none t
  have h6c : (Job.update_status j "failed" none (some (msg ++ "\ntraceback")) none t).completedAt
      = some t := by
    rw [h6]; simp
  have h2c : (Job.update_status j "failed" none (some (msg ++ "\ntraceback")) none t).progress
      = j.progress := by
    rw [h2]
  constructor
  · intro hb
    have hb2 : (Job.update_status j "failed" none (some (msg ++ "\ntraceback")) none t).retryCount
        < (Job.update_status j "failed" none (some (msg ++ "\ntraceback")) none t).maxRetries := by
      rw [h3, h4]; exact hb
    simp only [processFail, retryStep_eq _ hb2]
    simp [h3, h6c, h2c, h11, h9]
  · intro hb
    have hb2 : ¬ (Job.update_status j "failed" none (some (msg ++ "\ntraceback")) none t).retryCount
        < (Job.update_status j "failed" none (some (msg ++ "\ntraceback")) none t).maxRetries := by
      rw [h3, h4]; exact hb
    simp only [processFail, if_neg hb2]
    exact ⟨h1, h3, h6c⟩

/-- Unfolding of JobWorker.process_job when the job type has no
registered handler: the worker sets the row running, then takes the
exception branch with the ValueError message. -/
theorem process_job_no_handler {α : Type} (job : JobRow α)
    (handlers : String → Option (JobRow α → HandlerOutcome)) (tS tE : Nat)
    (hnc : ¬ job.status = "cancelled") (hno : handlers job.jobType = none) :
    process_job job handlers tS tE =
      processFail (Job.update_status job "running" (some 0) none none tS)
        ("No handler registered for job type: " ++ job.jobType) tE := by
  simp only [process_job, if_neg hnc, hno]

/-- Unfolding of JobWorker.process_job when the handler raises: the
worker sets the row running, then takes the exception branch with the
raised message. -/
theorem process_job_handler_raises {α : Type} (job : JobRow α)
    (handlers : String → Option (JobRow α → HandlerOutcome)) (tS tE : Nat)
    (msg : String) (hnc : ¬ job.status = "cancelled")
    (hh : handlers job.jobType = some (fun _ => HandlerOutcome.failure msg)) :
    process_job job handlers tS tE =
      processFail (Job.update_status job "running" (some 0) none none tS) msg tE := by
  simp only [process_job, if_neg hnc, hh]

/-! ## Claim C1 -/

/-- Claim C1 fails on the code: a progress update (update_job_progress)
applied to a job already completed moves its status back to running and
overwrites started_at with the current time; here the concrete completed
job doneJob (started_at 3, completed_at 5) is moved to running with
started_at 9. -/
theorem C1_progress_reopens_terminal_cex :
    doneJob.status = "completed" ∧ doneJob.startedAt = some 3 ∧
    (update_job_progress doneJob 50 none 9).status = "running" ∧
    (update_job_progress doneJob 50 none 9).startedAt = some 9 := by
  decide

/-- Claim C1 as amended: for a job in a terminal state, Job.cancel
refuses and leaves the row unchanged, and Job.retry is the only
status-checking operation that moves it (to pending, with budget left,
preserving completed_at); but Job.update_status applies its status
argument without checking the current state, so a progress update on the
terminal job sets status running and overwrites started_at. -/
theorem C1_terminal_guards {α : Type} (job : JobRow α) (now t : Nat) (p : Int)
    (msg : Option String)
    (hterm : job.status = "completed" ∨ job.status = "failed" ∨ job.status = "cancelled") :
    Job.cancel job now = (false, job) ∧
    (job.retryCount < job.maxRetries →
      (Job.retry job).1 = true ∧ (Job.retry job).2.status = "pending" ∧
      (Job.retry job).2.completedAt = job.completedAt) ∧
    (update_job_progress job p msg t).status = "running" ∧
    (update_job_progress job p msg t).startedAt = some t := by
  obtain ⟨g1, g2, g3, g4, g5, g6, g7, g8, g9, g10, g11⟩ :=
    update_status_fields job "running" (some p) none
      (some (match msg with
             | some m => if m = "" then [] else [("progress_message", m)]
             | none => [])) t
  refine ⟨by simp only [Job.cancel, if_pos hterm], ?_, ?_, ?_⟩
  · intro hb
    simp [Job.retry, if_neg (by omega : ¬ job.retryCount ≥ job.maxRetries)]
  · simpa only [update_job_progress] using g1
  · simp only [update_job_progress]
    rw [g5]; simp

/-- Witness for C1_terminal_guards at the concrete completed job doneJob
with a progress update of 50 percent at time 9. -/
theorem C1_terminal_guards_witness :
    Job.cancel doneJob 7 = (false, doneJob) ∧
    (doneJob.retryCount < doneJob.maxRetries →
      (Job.retry doneJob).1 = true ∧ (Job.retry doneJob).2.status = "pending" ∧
      (Job.retry doneJob).2.completedAt = doneJob.completedAt) ∧
    (update_job_progress doneJob 50 none 9).status = "running" ∧
    (update_job_progress doneJob 50 none 9).startedAt = some 9 :=
  C1_terminal_guards doneJob 7 9 50 none (Or.inl rfl)

/-! ## Claim C2 -/

/-- Claim C2 fails on the code: processing the concrete pending job
mysteryJob, whose type mystery has no registered handler and whose retry
budget is untouched (0 of 3), does not leave it failed without retry; the
worker marks it failed and then immediately retries it, so it ends
pending with retry_count 1. -/
theorem C2_unknown_type_retried_cex :
    (process_job mysteryJob (fun _ => none) 3 4).status = "pending" ∧
    (process_job mysteryJob (fun _ => none) 3 4).retryCount = 1 := by
  decide

/-- Claim C2 as amended: when a worker pops a non-cancelled job whose
type has no registered handler, the raised ValueError is handled like any
other failure; with retry budget left the job is reset to pending with
retry_count incremented, and only with the budget exhausted does it end
failed with retry_count unchanged. -/
theorem C2_unknown_type_policy {α : Type} (job : JobRow α)
    (handlers : String → Option (JobRow α → HandlerOutcome)) (tS tE : Nat)
    (hnc : ¬ job.status = "cancelled") (hno : handlers job.jobType = none) :
    (job.retryCount < job.maxRetries →
      (process_job job handlers tS tE).status = "pending" ∧
      (process_job job handlers tS tE).retryCount = job.retryCount + 1) ∧
    (¬ job.retryCount < job.maxRetries →
      (process_job job handlers tS tE).status = "failed" ∧
      (process_job job handlers tS tE).retryCount = job.retryCount) := by
  obtain ⟨g1, g2, g3, g4, g5, g6, g7, g8, g9, g10, g11⟩ :=
    update_status_fields job "running" (some 0) none none tS
  rw [process_job_no_handler job handlers tS tE hnc hno]
  obtain ⟨f1, f2⟩ :=
    processFail_spec (Job.update_status job "running" (some 0) none none tS)
      ("No handler registered for job type: " ++ job.jobType) tE
  constructor
  · intro hb
    have hb2 := g3 ▸ g4 ▸ hb
    obtain ⟨a1, a2, a3, a4, a5, a6⟩ := f1 hb2
    exact ⟨a1, by rw [a2, g3]⟩
  · intro hb
    have hb2 := g3 ▸ g4 ▸ hb
    obtain ⟨a1, a2, a3⟩ := f2 hb2
    exact ⟨a1, by rw [a2, g3]⟩

/-- Witness for C2_unknown_type_policy at the concrete job mysteryJob
with no handlers registered at all. -/
theorem C2_unknown_type_policy_witness :
    (mysteryJob.retryCount < mysteryJob.maxRetries →
      (process_job mysteryJob (fun _ => none) 3 4).status = "pending" ∧
      (process_job mysteryJob (fun _ => none) 3 4).retryCount = mysteryJob.retryCount + 1) ∧
    (¬ mysteryJob.retryCount < mysteryJob.maxRetries →
      (process_job mysteryJob (fun _ => none) 3 4).status = "failed" ∧
      (process_job mysteryJob (fun _ => none) 3 4).retryCount = mysteryJob.retryCount) :=
  C2_unknown_type_policy mysteryJob (fun _ => none) 3 4 (by decide) rfl

/-! ## Claim C4 -/

/-- Claim C4 fails on the code as a bug: Job.update_status was meant to
set started_at only on the first transition to running (its guard reads
`not updates.get(started_at)`), but the guard inspects the updates dict,
which never holds that key, so every running update overwrites
started_at.  Concretely: the pending job plainJob set running at time 3
has started_at 3, and a later progress update at time 9 moves started_at
to 9. -/
theorem C4_started_at_overwritten :
    (Job.update_status plainJob "running" (some 0) none none 3).startedAt = some 3 ∧
    (update_job_progress (Job.update_status plainJob "running" (some 0) none none 3)
      55 none 9).status = "running" ∧
    (update_job_progress (Job.update_status plainJob "running" (some 0) none none 3)
      55 none 9).startedAt = some 9 := by
  decide

/-! ## Claim C9 -/

/-- Claim C9: Job.retry rewrites exactly the fields status (to pending),
retry_count (incremented) and error_message (cleared), leaving every
other field of the row unchanged; consequently a job sent back to
pending by the worker after a failed attempt still carries the non-null
completed_at stamped by that failure. -/
theorem C9_retry_frame {α : Type} (job : JobRow α)
    (hbudget : job.retryCount < job.maxRetries) :
    Job.retry job =
      (true, { job with status := "pending", retryCount := job.retryCount + 1,
                        errorMessage := none }) ∧
    ∀ (handlers : String → Option (JobRow α → HandlerOutcome)) (tS tE : Nat) (msg : String),
      ¬ job.status = "cancelled" →
      handlers job.jobType = some (fun _ => HandlerOutcome.failure msg) →
      (process_job job handlers tS tE).status = "pending" ∧
      (process_job job handlers tS tE).completedAt = some tE := by
  constructor
  · simp only [Job.retry, if_neg (by omega : ¬ job.retryCount ≥ job.maxRetries)]
  · intro handlers tS tE msg hnc hh
    obtain ⟨g1, g2, g3, g4, g5, g6, g7, g8, g9, g10, g11⟩ :=
      update_status_fields job "running" (some 0) none none tS
    rw [process_job_handler_raises job handlers tS tE msg hnc hh]
    obtain ⟨f1, _⟩ :=
      processFail_spec (Job.update_status job "running" (some 0) none none tS) msg tE
    have hb2 := g3 ▸ g4 ▸ hbudget
    obtain ⟨a1, a2, a3, a4, a5, a6⟩ := f1 hb2
    exact ⟨a1, a3⟩

/-- Witness for C9_retry_frame at the concrete failed job failedJob
(retry 1 of 3, progress 55, completed_at 5). -/
theorem C9_retry_frame_witness :
    Job.retry failedJob =
      (true, { failedJob with status := "pending",
                              retryCount := failedJob.retryCount + 1,
                              errorMessage := none }) ∧
    ∀ (handlers : String → Option (JobRow Unit → HandlerOutcome)) (tS tE : Nat) (msg : String),
      ¬ failedJob.status = "cancelled" →
      handlers failedJob.jobType = some (fun _ => HandlerOutcome.failure msg) →
      (process_job failedJob handlers tS tE).status = "pending" ∧
      (process_job failedJob handlers tS tE).completedAt = some tE :=
  C9_retry_frame failedJob (by decide)

/-- Python string comparison is irreflexive at the character-list level. -/
theorem charListLtB_irrefl (l : List Char) : charListLtB l l = false := by
  induction l with
  | nil => rfl
  | cons a as ih => simp [charListLtB, charLtB, ih]

/-- Python string comparison is irreflexive. -/
theorem strLtB_irrefl (s : String) : strLtB s s = false :=
  charListLtB_irrefl s.data

/-- Claim C3 fails on the code: submitting A (priority 0, id zz-a), then
B (priority 5, id bb-b), then C (priority 0, id aa-c) pops B, C, A — not
B, A, C — because the heap breaks priority ties by job id string, and C
drew a smaller id than A. -/
theorem C3_pop_order_cex :
    popOrder (queueSubmit (queueSubmit (queueSubmit [] 0 "zz-a") 5 "bb-b") 0 "aa-c")
      = ["bb-b", "aa-c", "zz-a"] ∧
    popOrder (queueSubmit (queueSubmit (queueSubmit [] 0 "zz-a") 5 "bb-b") 0 "aa-c")
      ≠ ["bb-b", "zz-a", "aa-c"] := by
  decide

/-- Claim C3 as amended: pop order is priority-descending, but the
within-tier tiebreak is the lexicographic order of the job id strings
(heap entries are (-priority, job_id)), not creation time.  Submitting A
(priority 0), then B (priority 5), then C (priority 0) pops B first, then
A before C exactly when A's random id does not compare above C's. -/
theorem C3_pop_order_tiebreak (a b c : String) :
    (strLtB c a = false →
      popOrder (queueSubmit (queueSubmit (queueSubmit [] 0 a) 5 b) 0 c) = [b, a, c]) ∧
    (strLtB c a = true →
      popOrder (queueSubmit (queueSubmit (queueSubmit [] 0 a) 5 b) 0 c) = [b, c, a]) := by
  have hac : strLtB c a = true → (a = c) = False := by
    intro h
    simp only [eq_iff_iff, iff_false]
    intro heq
    rw [heq] at h
    rw [strLtB_irrefl] at h
    exact Bool.false_ne_true h
  constructor
  · intro h
    simp [popOrder, queueSubmit, popOrderAux, minEntry, entryLt, h,
          List.erase_cons, Prod.ext_iff]
  · intro h
    simp [popOrder, queueSubmit, popOrderAux, minEntry, entryLt, h,
          List.erase_cons, Prod.ext_iff, hac h]

/-- Witness for C3_pop_order_tiebreak with ids in submission order. -/
theorem C3_pop_order_tiebreak_witness :
    popOrder (queueSubmit (queueSubmit (queueSubmit [] 0 "id-a") 5 "id-b") 0 "id-c")
      = ["id-b", "id-a", "id-c"] :=
  (C3_pop_order_tiebreak "id-a" "id-b" "id-c").1 (by decide)

/-! ## Claim C5 -/

/-- Claim C5 fails on the code: for a video whose bytes exist in both the
uploads directory (named downloads) and the processed directory, the
resolver returns the processed path, not the uploads path, because the
source checks processed first; the uploads path is only an unchecked
fallback. -/
theorem C5_resolver_order_cex :
    ("downloads/f.mp4" ∈ ["downloads/f.mp4", "processed/f.mp4"]) ∧
    get_video_path ["downloads/f.mp4", "processed/f.mp4"]
      { filename := "f.mp4", parentVideoId := none } = "processed/f.mp4" ∧
    get_video_path ["downloads/f.mp4", "processed/f.mp4"]
      { filename := "f.mp4", parentVideoId := none } ≠ "downloads/f.mp4" := by
  decide

/-- Claim C5 as amended: the resolver checks the processed directory
first and returns that path when the file exists there; otherwise, when
the video has a truthy parent_video_id, it checks the single legacy
subfolder processed/clips_(parent id) and returns it on existence; in
every other case it returns the uploads path (directory named downloads)
without checking existence.  There is no general recursive scan, and
uploads is the unchecked fallback, not the first probe. -/
theorem C5_resolver_order (fs : List String) (v : VideoRow) :
    (PROCESSED_FOLDER ++ "/" ++ v.filename ∈ fs →
      get_video_path fs v = PROCESSED_FOLDER ++ "/" ++ v.filename) ∧
    (PROCESSED_FOLDER ++ "/" ++ v.filename ∉ fs →
      ∀ c, clipSubfolderPath v = some c → c ∈ fs → get_video_path fs v = c) ∧
    (PROCESSED_FOLDER ++ "/" ++ v.filename ∉ fs →
      (∀ c, clipSubfolderPath v = some c → c ∉ fs) →
      get_video_path fs v = UPLOAD_FOLDER ++ "/" ++ v.filename) := by
  refine ⟨?_, ?_, ?_⟩
  · intro h
    simp [get_video_path, h]
  · intro h c hc hm
    simp [get_video_path, if_neg h, hc, hm]
  · intro h hc
    simp only [get_video_path, if_neg h]
    cases hcp : clipSubfolderPath v with
    | none => rfl
    | some c => simp [if_neg (hc c hcp)]

/-- Witness for C5_resolver_order: a file present only under processed
resolves there, and a file present nowhere falls back to the downloads
path. -/
theorem C5_resolver_order_witness :
    get_video_path ["processed/g.mp4"]
      { filename := "g.mp4", parentVideoId := none } = "processed/g.mp4" ∧
    get_video_path [] { filename := "g.mp4", parentVideoId := none }
      = "downloads/g.mp4" :=
  ⟨(C5_resolver_order ["processed/g.mp4"] { filename := "g.mp4", parentVideoId := none }).1
      (by decide),
   (C5_resolver_order [] { filename := "g.mp4", parentVideoId := none }).2.2
      (by decide)
      (by intro c hc; simp [clipSubfolderPath] at hc)⟩

/-! ## Claim C7 -/

/-- Claim C7 fails on the code: a trim request with start_time 30 and
end_time 10 (end below start) is not rejected; the route creates a
pending Job row and enqueues it. -/
theorem C7_invalid_trim_submitted_cex :
    ((trim_video_route [] "p1" "v1" true
        (some { start_time := some 30, end_time := some 10, title := none })
        "job-9" 7).1 ≠ none) ∧
    (trim_video_route [] "p1" "v1" true
        (some { start_time := some 30, end_time := some 10, title := none })
        "job-9" 7).2 = [(0, "job-9")] ∧
    ((trim_video_route [] "p1" "v1" true
        (some { start_time := some 30, end_time := some 10, title := none })
        "job-9" 7).1.map (fun j => j.status)) = some "pending" := by
  decide

/-- Claim C7 as amended: the trim route validates nothing about the time
range; whenever the target video exists it creates a pending trim Job
carrying the submitted (or defaulted) start_time, end_time and title and
pushes it onto the queue, for every combination of times including
end_time at or below start_time; only a missing video is rejected with no
Job created. -/
theorem C7_trim_route_never_validates (q : List (Int × String))
    (pid vid : String) (req : Option TrimReq) (newId : String) (now : Nat) :
    (trim_video_route q pid vid true req newId now).1 =
      some (Job.create TrimInput newId "trim" (some pid) (some vid)
        (some { start_time :=
                  (req.getD { start_time := none, end_time := none, title := none }).start_time.getD 0,
                end_time :=
                  (req.getD { start_time := none, end_time := none, title := none }).end_time.getD 10,
                title :=
                  (req.getD { start_time := none, end_time := none, title := none }).title.getD "Clip" })
        0 now) ∧
    ((trim_video_route q pid vid true req newId now).1.map (fun j => j.status))
      = some "pending" ∧
    (trim_video_route q pid vid true req newId now).2 = q ++ [(0, newId)] ∧
    (trim_video_route q pid vid false req newId now).1 = none ∧
    (trim_video_route q pid vid false req newId now).2 = q := by
  refine ⟨rfl, ?_, rfl, rfl, rfl⟩
  simp [trim_video_route, Job.create]

/-! ## Claim C8: lemmas about the SRT writer -/

set_option maxRecDepth 100000 in
/-- For values below 100 the 02-padded rendering is two digit
characters. -/
theorem pad2_spec : ∀ n, n < 100 →
    (pad2 n).length = 2 ∧ ∀ ch ∈ pad2 n, isDigitChar ch = true := by
  decide

set_option maxRecDepth 400000 in
/-- For values below 1000 the 03-padded rendering is three digit
characters. -/
theorem pad3_spec : ∀ n, n < 1000 →
    (pad3 n).length = 3 ∧ ∀ ch ∈ pad3 n, isDigitChar ch = true := by
  decide

/-- Any timestamp below 100 hours renders in the HH:MM:SS,mmm shape. -/
theorem format_ts_shape (ms : Nat) (h : ms < 360000000) :
    tsShapeOk (format_ts ms) = true := by
  have hh : ms / 3600000 < 100 := by omega
  have hm : ms % 3600000 / 60000 < 60 := by omega
  have hs : ms % 60000 / 1000 < 60 := by omega
  have hmi : ms % 1000 < 1000 := by omega
  obtain ⟨hl1, hd1⟩ := pad2_spec (ms / 3600000) hh
  obtain ⟨hl2, hd2⟩ := pad2_spec (ms % 3600000 / 60000) (by omega)
  obtain ⟨hl3, hd3⟩ := pad2_spec (ms % 60000 / 1000) (by omega)
  obtain ⟨hl4, hd4⟩ := pad3_spec (ms % 1000) hmi
  obtain ⟨a0, a1, hab⟩ := List.length_eq_two.mp hl1
  obtain ⟨a3, a4, hcd⟩ := List.length_eq_two.mp hl2
  obtain ⟨a6, a7, hef⟩ := List.length_eq_two.mp hl3
  obtain ⟨a9, a10, a11, hghi⟩ := List.length_eq_three.mp hl4
  rw [hab] at hd1
  rw [hcd] at hd2
  rw [hef] at hd3
  rw [hghi] at hd4
  simp only [format_ts]
  rw [hab, hcd, hef, hghi]
  simp [tsShapeOk, hd1 a0 (by simp), hd1 a1 (by simp), hd2 a3 (by simp),
        hd2 a4 (by simp), hd3 a6 (by simp), hd3 a7 (by simp),
        hd4 a9 (by simp), hd4 a10 (by simp), hd4 a11 (by simp)]

/-- Concatenating two well-shaped timestamps with the arrow separator
gives a well-shaped timing line. -/
theorem tsLineOk_cat (x y : List Char) (hx : tsShapeOk x = true)
    (hy : tsShapeOk y = true) : tsLineOk (x ++ (arrowSep ++ y)) = true := by
  rcases x with _ | ⟨a0, x⟩ <;> try simp [tsShapeOk] at hx
  rcases x with _ | ⟨a1, x⟩ <;> try simp [tsShapeOk] at hx
  rcases x with _ | ⟨a2, x⟩ <;> try simp [tsShapeOk] at hx
  rcases x with _ | ⟨a3, x⟩ <;> try simp [tsShapeOk] at hx
  rcases x with _ | ⟨a4, x⟩ <;> try simp [tsShapeOk] at hx
  rcases x with _ | ⟨a5, x⟩ <;> try simp [tsShapeOk] at hx
  rcases x with _ | ⟨a6, x⟩ <;> try simp [tsShapeOk] at hx
  rcases x with _ | ⟨a7, x⟩ <;> try simp [tsShapeOk] at hx
  rcases x with _ | ⟨a8, x⟩ <;> try simp [tsShapeOk] at hx
  rcases x with _ | ⟨a9, x⟩ <;> try simp [tsShapeOk] at hx
  rcases x with _ | ⟨a10, x⟩ <;> try simp [tsShapeOk] at hx
  rcases x with _ | ⟨a11, x⟩ <;> try simp [tsShapeOk] at hx
  rcases x with _ | ⟨a12, x⟩
  · simp_all [tsLineOk, tsShapeOk, arrowSep]
  · simp [tsShapeOk] at hx

/-- The emitting loop produces well-formed blocks from any starting
index, one block of four lines per item with non-empty stripped text,
provided all times are below 100 hours. -/
theorem write_srt_aux_ok (cs : List RawCue) : ∀ i : Nat,
    (∀ c ∈ cs, c.start < 360000000 ∧ c.stop < 360000000) →
    srtLinesOk i (write_srt_aux i cs) = true ∧
    (write_srt_aux i cs).length = 4 * (cs.filter (fun c => c.text ≠ [])).length := by
  induction cs with
  | nil => intro i _; exact ⟨rfl, rfl⟩
  | cons c rest ih =>
    intro i hb
    have hbc := hb c (List.mem_cons_self c rest)
    have hbr : ∀ x ∈ rest, x.start < 360000000 ∧ x.stop < 360000000 :=
      fun x hx => hb x (List.mem_cons_of_mem c hx)
    by_cases hct : c.text = []
    · obtain ⟨ih1, ih2⟩ := ih i hbr
      constructor
      · simpa [write_srt_aux, hct] using ih1
      · simp [write_srt_aux, hct, ih2, List.filter_cons]
    · obtain ⟨ih1, ih2⟩ := ih (i + 1) hbr
      constructor
      · simp only [write_srt_aux, if_neg hct, srtLinesOk]
        simp [tsLineOk_cat _ _ (format_ts_shape _ hbc.1) (format_ts_shape _ hbc.2),
              ih1, hct]
      · simp [write_srt_aux, if_neg hct, List.filter_cons, hct, ih2]
        omega

/-- Every raw item inherits the time bound from its segment or word. -/
theorem srtRawItems_bounds (segments : List SrtSegment) (word_level : Bool)
    (hb : segTimesBelow segments 360000000) :
    ∀ c ∈ srtRawItems segments word_level,
      c.start < 360000000 ∧ c.stop < 360000000 := by
  intro c hc
  cases word_level with
  | true =>
    simp [srtRawItems] at hc
    obtain ⟨seg, hseg, w, hw, hcw⟩ := hc
    obtain ⟨_, _, hws⟩ := hb seg hseg
    obtain ⟨h1, h2⟩ := hws w hw
    subst hcw
    exact ⟨h1, h2⟩
  | false =>
    simp [srtRawItems] at hc
    obtain ⟨seg, hseg, hcs⟩ := hc
    obtain ⟨h1, h2, _⟩ := hb seg hseg
    subst hcs
    exact ⟨h1, h2⟩

/-- Filtering the mapped raw items of a word list for non-empty text
counts exactly the words with non-empty stripped text. -/
theorem filter_map_rawcue (ws : List SrtWord) :
    ((ws.map (fun w =>
        ({ start := w.start, stop := w.stop, text := stripChars w.word } : RawCue))).filter
      (fun c => c.text ≠ [])).length
      = (ws.filter (fun w => stripChars w.word ≠ [])).length := by
  induction ws with
  | nil => rfl
  | cons w ws ihw =>
    simp only [List.map_cons, List.filter_cons]
    by_cases hw : stripChars w.word = []
    · simp only [ne_eq, decide_not] at ihw ⊢
      simp [hw, ihw]
    · simp only [ne_eq, decide_not] at ihw ⊢
      simp [hw, ihw]

/-- In word-level mode the number of emitted cues equals the number of
words with non-empty stripped text. -/
theorem srt_word_cue_count (segments : List SrtSegment) :
    srtCueCount segments true = nonEmptyWordCount segments := by
  unfold srtCueCount nonEmptyWordCount srtRawItems
  rw [if_pos rfl]
  induction segments with
  | nil => rfl
  | cons seg rest ih =>
    simp only [List.flatMap_cons, List.filter_append, List.length_append]
    rw [filter_map_rawcue, ih]

/-- Claim C8 fails on the code for timestamps at or above 100 hours: the
hour field of format_ts is only padded to a minimum of two digits, so a
segment starting at the 100 hour mark produces a timing line beginning
100: and the output fails the HH:MM:SS,mmm shape; the cues themselves
are still emitted. -/
theorem C8_hour_overflow_cex :
    srtLinesOk 1 (write_srt [seg100h] false) = false ∧
    (write_srt [seg100h] false).length = 4 ∧
    ((write_srt [seg100h] false).getD 1 []).take 4 = ['1', '0', '0', ':'] := by
  decide

/-- Claim C8 as amended: for every list of transcription segments whose
timestamps are below 100 hours, the SRT writer produces well-formed
output — cue indices start at 1 and increase by 1, timestamps match
HH:MM:SS,mmm, cue text is uppercased and never empty (empty-text
segments and words are skipped), four lines per cue with a blank
separator; in word-level mode exactly one cue is emitted per non-empty
word, and an empty segment list yields a zero-cue file.  At or above 100
hours the hour field keeps all its digits and the HH shape is lost. -/
theorem C8_srt_wellformed (segments : List SrtSegment) (word_level : Bool)
    (hb : segTimesBelow segments 360000000) :
    srtLinesOk 1 (write_srt segments word_level) = true ∧
    (write_srt segments word_level).length = 4 * srtCueCount segments word_level ∧
    (word_level = true → srtCueCount segments true = nonEmptyWordCount segments) ∧
    (segments = [] → write_srt segments word_level = []) := by
  obtain ⟨h1, h2⟩ := write_srt_aux_ok (srtRawItems segments word_level) 1
    (srtRawItems_bounds segments word_level hb)
  refine ⟨h1, h2, fun _ => srt_word_cue_count segments, fun hs => ?_⟩
  subst hs
  cases word_level <;> rfl

/-- Witness for C8_srt_wellformed: a one-segment sentence-level caption
and its well-formed single cue. -/
theorem C8_srt_wellformed_witness :
    srtLinesOk 1 (write_srt [segShort] false) = true ∧
    (write_srt [segShort] false).length = 4 * srtCueCount [segShort] false ∧
    (false = true → srtCueCount [segShort] true = nonEmptyWordCount [segShort]) ∧
    (([segShort] : List SrtSegment) = [] → write_srt [segShort] false = []) :=
  C8_srt_wellformed [segShort] false
    (by intro seg hseg
        simp only [List.mem_cons, List.not_mem_nil, or_false] at hseg
        subst hseg
        refine ⟨by norm_num [segShort], by norm_num [segShort], ?_⟩
        intro w hw
        simp [segShort] at hw)

/-! ## Claim C10: lemmas about the JSON codec -/

/-- Fuel irrelevance for the decimal rendering: any fuel above the value
gives the same digits. -/
theorem natDigitsAux_fuel (n : Nat) : ∀ f g, n < f → n < g →
    natDigitsAux f n = natDigitsAux g n := by
  induction n using Nat.strong_induction_on with
  | _ n ih =>
    intro f g hf hg
    match f, g with
    | Nat.succ f, Nat.succ g =>
      by_cases h10 : n < 10
      · simp [natDigitsAux, h10]
      · simp only [natDigitsAux, if_neg h10]
        rw [ih (n / 10) (by omega) f g (by omega) (by omega)]

/-- Unfolding of natDigits below ten. -/
theorem natDigits_lt10 (n : Nat) (h : n < 10) :
    natDigits n = [Char.ofNat (48 + n)] := by
  simp [natDigits, natDigitsAux, h]

/-- Unfolding of natDigits at ten or above. -/
theorem natDigits_ge10 (n : Nat) (h : 10 ≤ n) :
    natDigits n = natDigits (n / 10) ++ [Char.ofNat (48 + n % 10)] := by
  rw [natDigits, natDigits]
  show natDigitsAux (n + 1) n = _
  rw [show natDigitsAux (n + 1) n
      = (if n < 10 then [Char.ofNat (48 + n)]
         else natDigitsAux n (n / 10) ++ [Char.ofNat (48 + n % 10)]) from rfl]
  rw [if_neg (by omega)]
  rw [natDigitsAux_fuel (n / 10) n (n / 10 + 1) (by omega) (by omega)]

/-- Characters rendered for digit values are digit characters. -/
theorem digitChar_is : ∀ d, d < 10 → isDigitChar (Char.ofNat (48 + d)) = true := by
  decide

/-- Code point of a rendered digit character. -/
theorem digitChar_toNat : ∀ d, d < 10 → (Char.ofNat (48 + d)).toNat = 48 + d := by
  decide

/-- Every character of a decimal rendering is a digit. -/
theorem natDigits_digits (n : Nat) : ∀ ch ∈ natDigits n, isDigitChar ch = true := by
  induction n using Nat.strong_induction_on with
  | _ n ih =>
    by_cases h10 : n < 10
    · rw [natDigits_lt10 n h10]
      intro ch hch
      simp only [List.mem_singleton] at hch
      subst hch
      exact digitChar_is n h10
    · rw [natDigits_ge10 n (by omega)]
      intro ch hch
      rw [List.mem_append] at hch
      rcases hch with hch | hch
      · exact ih (n / 10) (by omega) ch hch
      · simp only [List.mem_singleton] at hch
        subst hch
        exact digitChar_is (n % 10) (by omega)

/-- A decimal rendering is never empty. -/
theorem natDigits_ne_nil (n : Nat) : natDigits n ≠ [] := by
  by_cases h10 : n < 10
  · rw [natDigits_lt10 n h10]; simp
  · rw [natDigits_ge10 n (by omega)]; simp

/-- A decimal rendering decomposes into a digit head and a tail of
digits. -/
theorem natDigits_head (n : Nat) : ∃ c cs, natDigits n = c :: cs ∧
    isDigitChar c = true ∧ ∀ ch ∈ cs, isDigitChar ch = true := by
  cases hnd : natDigits n with
  | nil => exact absurd hnd (natDigits_ne_nil n)
  | cons c cs =>
    refine ⟨c, cs, rfl, ?_, ?_⟩
    · exact natDigits_digits n c (by rw [hnd]; exact List.mem_cons_self c cs)
    · intro ch hch
      exact natDigits_digits n ch (by rw [hnd]; exact List.mem_cons_of_mem c hch)

/-- A digit character differs from any non-digit character. -/
theorem digit_ne (c x : Char) (h : isDigitChar c = true)
    (hx : isDigitChar x = false) : ¬ c = x := by
  intro he
  subst he
  rw [h] at hx
  cases hx

/-- Reading past a literal that prefixes the input succeeds. -/
theorem parseLit_self (lit : List Char) : ∀ input,
    parseLit lit (lit ++ input) = some input := by
  induction lit with
  | nil => intro input; rfl
  | cons c cs ih =>
    intro input
    simp [parseLit, ih]

/-- One-step unfolding of parseStringBody on a cons cell. -/
theorem parseStringBody_cons (c : Char) (t : List Char) :
    parseStringBody (c :: t) =
      (if c = '"' then some ([], t)
       else if c = '\\' then
         match t with
         | [] => none
         | d :: rest2 =>
           match parseStringBody rest2 with
           | some p => some (d :: p.1, p.2)
           | none => none
       else
         match parseStringBody t with
         | some p => some (c :: p.1, p.2)
         | none => none) := by
  rw [parseStringBody.eq_def]

/-- Unfolding of escapeString on a cons cell. -/
theorem escapeString_cons (ch : Char) (s : List Char) :
    escapeString (ch :: s) = escapeChar ch ++ escapeString s := rfl

/-- Parsing the escaped form of a string up to its closing quote undoes
the escaping. -/
theorem parseStringBody_escape (s : List Char) : ∀ rest,
    parseStringBody (escapeString s ++ ('"' :: rest)) = some (s, rest) := by
  induction s with
  | nil =>
    intro rest
    show parseStringBody ('"' :: rest) = some ([], rest)
    rw [parseStringBody_cons, if_pos rfl]
  | cons ch s ih =>
    intro rest
    rw [escapeString_cons]
    by_cases hch : ch = '\\' ∨ ch = '"'
    · rw [show escapeChar ch = ['\\', ch] from if_pos hch]
      rw [List.append_assoc, List.cons_append, List.cons_append, List.nil_append]
      rw [parseStringBody_cons]
      rw [if_neg (by decide : ¬ ('\\' : Char) = '"'), if_pos rfl]
      show (match parseStringBody (escapeString s ++ ('"' :: rest)) with
            | some p => some (ch :: p.1, p.2)
            | none => none) = some (ch :: s, rest)
      rw [ih rest]
    · push_neg at hch
      obtain ⟨h1, h2⟩ := hch
      rw [show escapeChar ch = [ch] from if_neg (by tauto)]
      rw [List.append_assoc, List.cons_append, List.nil_append]
      rw [parseStringBody_cons]
      rw [if_neg h2, if_neg h1]
      show (match parseStringBody (escapeString s ++ ('"' :: rest)) with
            | some p => some (ch :: p.1, p.2)
            | none => none) = some (ch :: s, rest)
      rw [ih rest]

/-- parseDigitsGo returns immediately on input without a leading digit. -/
theorem parseDigitsGo_noDigit (acc : Nat) (rest : List Char)
    (h : ∀ c cs, rest = c :: cs → isDigitChar c = false) :
    parseDigitsGo acc rest = (acc, rest) := by
  cases rest with
  | nil => rfl
  | cons c cs => simp [parseDigitsGo, h c cs rfl]

/-- A run of digits followed by a non-digit accumulates left to right and
stops exactly at the boundary. -/
theorem parseDigitsGo_append (ds : List Char) : ∀ (acc : Nat) (rest : List Char),
    (∀ ch ∈ ds, isDigitChar ch = true) →
    (∀ c cs, rest = c :: cs → isDigitChar c = false) →
    parseDigitsGo acc (ds ++ rest)
      = (ds.foldl (fun a ch => a * 10 + (ch.toNat - 48)) acc, rest) := by
  induction ds with
  | nil =>
    intro acc rest _ hr
    simpa using parseDigitsGo_noDigit acc rest hr
  | cons d ds ih =>
    intro acc rest hd hr
    have hdd : isDigitChar d = true := hd d (List.mem_cons_self d ds)
    simp only [List.cons_append, List.foldl_cons]
    rw [show parseDigitsGo acc (d :: (ds ++ rest))
        = parseDigitsGo (acc * 10 + (d.toNat - 48)) (ds ++ rest) from by
      simp [parseDigitsGo, hdd]]
    exact ih _ rest (fun ch hch => hd ch (List.mem_cons_of_mem d hch)) hr

/-- Value of the digit fold over a decimal rendering. -/
theorem natDigits_foldl (n : Nat) : ∀ acc : Nat,
    (natDigits n).foldl (fun a ch => a * 10 + (ch.toNat - 48)) acc
      = acc * 10 ^ (natDigits n).length + n := by
  induction n using Nat.strong_induction_on with
  | _ n ih =>
    intro acc
    by_cases h10 : n < 10
    · rw [natDigits_lt10 n h10]
      simp [digitChar_toNat n h10]
    · rw [natDigits_ge10 n (by omega)]
      rw [List.foldl_append, List.length_append]
      rw [ih (n / 10) (by omega) acc]
      simp only [List.foldl_cons, List.foldl_nil, List.length_cons,
        List.length_nil, Nat.zero_add, pow_succ]
      rw [digitChar_toNat (n % 10) (by omega : n % 10 < 10)]
      have hdm : n / 10 * 10 + n % 10 = n := by omega
      calc (acc * 10 ^ (natDigits (n / 10)).length + n / 10) * 10 + (48 + n % 10 - 48)
          = acc * (10 ^ (natDigits (n / 10)).length * 10) + (n / 10 * 10 + n % 10) := by
            ring_nf
            omega
        _ = acc * (10 ^ (natDigits (n / 10)).length * 10) + n := by rw [hdm]

/-- Parsing a decimal rendering followed by a non-digit returns its
value and stops at the boundary. -/
theorem parseNat_natDigits (n : Nat) (rest : List Char)
    (hr : ∀ c cs, rest = c :: cs → isDigitChar c = false) :
    parseNat (natDigits n ++ rest) = some (n, rest) := by
  obtain ⟨c, cs, hnd, hc, hcs⟩ := natDigits_head n
  have hds : ∀ ch ∈ c :: cs, isDigitChar ch = true := by
    intro ch hch
    rcases List.mem_cons.mp hch with h | h
    · exact h ▸ hc
    · exact hcs ch h
  have hgo : parseDigitsGo (c.toNat - 48) (cs ++ rest)
      = ((c :: cs).foldl (fun a ch => a * 10 + (ch.toNat - 48)) 0, rest) := by
    have h0 : parseDigitsGo 0 ((c :: cs) ++ rest)
        = parseDigitsGo (c.toNat - 48) (cs ++ rest) := by
      simp [parseDigitsGo, hc]
    rw [← h0]
    exact parseDigitsGo_append (c :: cs) 0 rest hds hr
  have hval : (c :: cs).foldl (fun a ch => a * 10 + (ch.toNat - 48)) 0 = n := by
    have := natDigits_foldl n 0
    rw [hnd] at this
    simpa using this
  rw [hnd, List.cons_append]
  rw [show parseNat (c :: (cs ++ rest))
      = some (parseDigitsGo (c.toNat - 48) (cs ++ rest)) from by
    simp [parseNat, hc]]
  rw [hgo, hval]

/-- Parsing the decimal rendering of an integer followed by a non-digit
returns the integer. -/
theorem parseIntChars_intChars (n : Int) (rest : List Char)
    (hr : ∀ c cs, rest = c :: cs → isDigitChar c = false) :
    parseIntChars (intChars n ++ rest) = some (n, rest) := by
  by_cases hneg : n < 0
  · rw [show intChars n = '-' :: natDigits n.natAbs from by simp [intChars, hneg]]
    rw [List.cons_append]
    show (if ('-' : Char) = '-' then
            match parseNat (natDigits n.natAbs ++ rest) with
            | some p => some (-(p.1 : Int), p.2)
            | none => none
          else
            match parseNat ('-' :: (natDigits n.natAbs ++ rest)) with
            | some p => some ((p.1 : Int), p.2)
            | none => none) = some (n, rest)
    rw [if_pos rfl, parseNat_natDigits n.natAbs rest hr]
    show some (-((n.natAbs : Nat) : Int), rest) = some (n, rest)
    rw [show -((n.natAbs : Nat) : Int) = n from by omega]
  · rw [show intChars n = natDigits n.toNat from by simp [intChars, hneg]]
    obtain ⟨c, cs, hnd, hc, _⟩ := natDigits_head n.toNat
    have hcminus : ¬ c = '-' := digit_ne c '-' hc (by decide)
    rw [hnd, List.cons_append]
    show (if c = '-' then
            match parseNat (cs ++ rest) with
            | some p => some (-(p.1 : Int), p.2)
            | none => none
          else
            match parseNat (c :: (cs ++ rest)) with
            | some p => some ((p.1 : Int), p.2)
            | none => none) = some (n, rest)
    rw [if_neg hcminus, ← List.cons_append, ← hnd, parseNat_natDigits n.toNat rest hr]
    show some (((n.toNat : Nat) : Int), rest) = some (n, rest)
    rw [show ((n.toNat : Nat) : Int) = n from by omega]

/-- Every JSON value has positive node count. -/
theorem jsize_pos (v : JsonValue) : 1 ≤ jsize v := by
  cases v <;> simp [jsize]

/-- The decimal rendering of an integer starts with a digit or a minus
sign. -/
theorem intChars_head (n : Int) :
    ∃ c cs, intChars n = c :: cs ∧ (isDigitChar c = true ∨ c = '-') := by
  by_cases hneg : n < 0
  · exact ⟨'-', natDigits n.natAbs, by simp [intChars, hneg], Or.inr rfl⟩
  · obtain ⟨c, cs, hnd, hc, _⟩ := natDigits_head n.toNat
    exact ⟨c, cs, by simp [intChars, hneg, hnd], Or.inl hc⟩

mutual
/-- The node count of a value is at most the length of its rendering. -/
theorem jsize_le_dumps : ∀ v : JsonValue, jsize v ≤ (dumps v).length
  | JsonValue.jnull => by simp [jsize, dumps]
  | JsonValue.jbool b => by cases b <;> simp [jsize, dumps]
  | JsonValue.jint n => by
    obtain ⟨c, cs, hic, _⟩ := intChars_head n
    simp [jsize, dumps, hic]
  | JsonValue.jstr s => by simp [jsize, dumps]
  | JsonValue.jarr l => by
    have h := jsizeList_le_dumpsList l
    simp only [jsize, dumps, List.length_cons, List.length_append]
    omega
  | JsonValue.jobj o => by
    have h := jsizeObj_le_dumpsObj o
    simp only [jsize, dumps, List.length_cons, List.length_append]
    omega
/-- The node count of an array body is at most one more than the length
of its rendering. -/
theorem jsizeList_le_dumpsList : ∀ l : JsonList, jsizeList l ≤ (dumpsList l).length + 1
  | JsonList.nil => by simp [jsizeList, dumpsList]
  | JsonList.cons v JsonList.nil => by
    have h := jsize_le_dumps v
    simp only [jsizeList, dumpsList]
    omega
  | JsonList.cons v (JsonList.cons w t) => by
    have h1 := jsize_le_dumps v
    have h2 := jsizeList_le_dumpsList (JsonList.cons w t)
    simp only [jsizeList, dumpsList, List.length_append, List.length_cons] at h2 ⊢
    omega
/-- The node count of an object body is at most one more than the length
of its rendering. -/
theorem jsizeObj_le_dumpsObj : ∀ o : JsonObj, jsizeObj o ≤ (dumpsObj o).length + 1
  | JsonObj.onil => by simp [jsizeObj, dumpsObj]
  | JsonObj.ocons k v JsonObj.onil => by
    have h := jsize_le_dumps v
    simp only [jsizeObj, dumpsObj, List.length_append, List.length_cons]
    omega
  | JsonObj.ocons k v (JsonObj.ocons k2 v2 t) => by
    have h1 := jsize_le_dumps v
    have h2 := jsizeObj_le_dumpsObj (JsonObj.ocons k2 v2 t)
    simp only [jsizeObj, dumpsObj, List.length_append, List.length_cons] at h2 ⊢
    omega
end

/-- The rendering of any value is non-empty and never starts with a
closing bracket or closing brace. -/
theorem dumps_head_ne (v : JsonValue) :
    ∃ c cs, dumps v = c :: cs ∧ ¬ c = ']' ∧ ¬ c = rbrace := by
  cases v with
  | jnull => exact ⟨'n', _, rfl, by decide, by decide⟩
  | jbool b =>
    cases b with
    | true => exact ⟨'t', _, rfl, by decide, by decide⟩
    | false => exact ⟨'f', _, rfl, by decide, by decide⟩
  | jint n =>
    obtain ⟨c, cs, hic, hcd⟩ := intChars_head n
    refine ⟨c, cs, by simp [dumps, hic], ?_, ?_⟩
    · rcases hcd with hc | hc
      · exact digit_ne c ']' hc (by decide)
      · subst hc; decide
    · rcases hcd with hc | hc
      · exact digit_ne c rbrace hc (by decide)
      · subst hc; decide
  | jstr s => exact ⟨'"', _, rfl, by decide, by decide⟩
  | jarr l => exact ⟨'[', _, rfl, by decide, by decide⟩
  | jobj o => exact ⟨lbrace, _, rfl, by decide, by decide⟩

/-- The rendering of a non-empty array body is non-empty and never
starts with a closing bracket. -/
theorem dumpsList_cons_head (v : JsonValue) (t : JsonList) :
    ∃ c cs, dumpsList (JsonList.cons v t) = c :: cs ∧ ¬ c = ']' := by
  obtain ⟨c, cs, hd, hc, _⟩ := dumps_head_ne v
  cases t with
  | nil => exact ⟨c, cs, by simp [dumpsList, hd], hc⟩
  | cons w t2 =>
    exact ⟨c, cs ++ ([',', ' '] ++ dumpsList (JsonList.cons w t2)),
      by simp [dumpsList, hd], hc⟩

set_option maxHeartbeats 2000000 in
/-- One-step unfolding of parseVal on positive fuel and a cons input. -/
theorem parseVal_cons (f : Nat) (c : Char) (t : List Char) :
    parseVal (f + 1) (c :: t) =
      (if c = 'n' then
        match parseLit ['u', 'l', 'l'] t with
        | some r => some (JsonValue.jnull, r)
        | none => none
      else if c = 't' then
        match parseLit ['r', 'u', 'e'] t with
        | some r => some (JsonValue.jbool true, r)
        | none => none
      else if c = 'f' then
        match parseLit ['a', 'l', 's', 'e'] t with
        | some r => some (JsonValue.jbool false, r)
        | none => none
      else if c = '"' then
        match parseStringBody t with
        | some p => some (JsonValue.jstr p.1, p.2)
        | none => none
      else if c = '[' then
        match t with
        | [] => none
        | d :: r2 =>
          if d = ']' then some (JsonValue.jarr JsonList.nil, r2)
          else
            match parseItems f (d :: r2) with
            | some (l, r3) =>
              match r3 with
              | e :: r4 => if e = ']' then some (JsonValue.jarr l, r4) else none
              | [] => none
            | none => none
      else if c = lbrace then
        match t with
        | [] => none
        | d :: r2 =>
          if d = rbrace then some (JsonValue.jobj JsonObj.onil, r2)
          else
            match parseFields f (d :: r2) with
            | some (o, r3) =>
              match r3 with
              | e :: r4 => if e = rbrace then some (JsonValue.jobj o, r4) else none
              | [] => none
            | none => none
      else if c = '-' ∨ isDigitChar c then
        match parseIntChars (c :: t) with
        | some p => some (JsonValue.jint p.1, p.2)
        | none => none
      else none) := rfl

/-- One-step unfolding of parseItems on positive fuel. -/
theorem parseItems_succ (f : Nat) (input : List Char) :
    parseItems (f + 1) input =
      (match parseVal f input with
       | some (v, rest) =>
         match rest with
         | c1 :: c2 :: r2 =>
           if c1 = ',' ∧ c2 = ' ' then
             match parseItems f r2 with
             | some (l, r3) => some (JsonList.cons v l, r3)
             | none => none
           else some (JsonList.cons v JsonList.nil, rest)
         | _ => some (JsonList.cons v JsonList.nil, rest)
       | none => none) := rfl

/-- One-step unfolding of parseFields on positive fuel and a cons
input. -/
theorem parseFields_cons (f : Nat) (c : Char) (t : List Char) :
    parseFields (f + 1) (c :: t) =
      (if c = '"' then
        match parseStringBody t with
        | some kp =>
          match kp.2 with
          | d1 :: d2 :: r2 =>
            if d1 = ':' ∧ d2 = ' ' then
              match parseVal f r2 with
              | some (v, r3) =>
                match r3 with
                | e1 :: e2 :: r4 =>
                  if e1 = ',' ∧ e2 = ' ' then
                    match parseFields f r4 with
                    | some (o, r5) => some (JsonObj.ocons kp.1 v o, r5)
                    | none => none
                  else some (JsonObj.ocons kp.1 v JsonObj.onil, r3)
                | _ => some (JsonObj.ocons kp.1 v JsonObj.onil, r3)
              | none => none
            else none
          | _ => none
        | none => none
      else none) := rfl

/-- A numeric head character is distinct from every dispatch character
that precedes the number branch of parseVal. -/
theorem num_head_dispatch (c : Char) (h : isDigitChar c = true ∨ c = '-') :
    (¬ c = 'n') ∧ (¬ c = 't') ∧ (¬ c = 'f') ∧ (¬ c = '"') ∧ (¬ c = '[') ∧
      (¬ c = lbrace) ∧ (c = '-' ∨ isDigitChar c = true) := by
  rcases h with hc | hc
  · exact ⟨digit_ne c 'n' hc (by decide), digit_ne c 't' hc (by decide),
      digit_ne c 'f' hc (by decide), digit_ne c '"' hc (by decide),
      digit_ne c '[' hc (by decide), digit_ne c lbrace hc (by decide), Or.inr hc⟩
  · subst hc
    exact ⟨by decide, by decide, by decide, by decide, by decide, by decide,
      Or.inl rfl⟩

mutual
/-- Parsing the rendering of a value followed by input that does not
start with a digit returns the value and stops at the boundary, for any
fuel at or above the node count. -/
theorem parseVal_dumps : ∀ (v : JsonValue) (fuel : Nat) (rest : List Char),
    jsize v ≤ fuel →
    (∀ c cs, rest = c :: cs → isDigitChar c = false) →
    parseVal fuel (dumps v ++ rest) = some (v, rest)
  | JsonValue.jnull, 0, rest, hf, _ => by simp [jsize] at hf
  | JsonValue.jnull, Nat.succ f, rest, hf, hr => by
    have hp : parseLit ['u', 'l', 'l'] ('u' :: 'l' :: 'l' :: rest) = some rest :=
      parseLit_self ['u', 'l', 'l'] rest
    rw [show dumps JsonValue.jnull ++ rest = 'n' :: ('u' :: 'l' :: 'l' :: rest) from rfl]
    rw [parseVal_cons f 'n' _, if_pos rfl, hp]
  | JsonValue.jbool true, 0, rest, hf, _ => by simp [jsize] at hf
  | JsonValue.jbool true, Nat.succ f, rest, hf, hr => by
    have hp : parseLit ['r', 'u', 'e'] ('r' :: 'u' :: 'e' :: rest) = some rest :=
      parseLit_self ['r', 'u', 'e'] rest
    rw [show dumps (JsonValue.jbool true) ++ rest = 't' :: ('r' :: 'u' :: 'e' :: rest) from rfl]
    rw [parseVal_cons f 't' _, if_neg (by decide), if_pos rfl, hp]
  | JsonValue.jbool false, 0, rest, hf, _ => by simp [jsize] at hf
  | JsonValue.jbool false, Nat.succ f, rest, hf, hr => by
    have hp : parseLit ['a', 'l', 's', 'e'] ('a' :: 'l' :: 's' :: 'e' :: rest) = some rest :=
      parseLit_self ['a', 'l', 's', 'e'] rest
    rw [show dumps (JsonValue.jbool false) ++ rest
        = 'f' :: ('a' :: 'l' :: 's' :: 'e' :: rest) from rfl]
    rw [parseVal_cons f 'f' _, if_neg (by decide), if_neg (by decide), if_pos rfl, hp]
  | JsonValue.jint n, 0, rest, hf, _ => by simp [jsize] at hf
  | JsonValue.jint n, Nat.succ f, rest, hf, hr => by
    obtain ⟨c, cs, hic, hcd⟩ := intChars_head n
    obtain ⟨h1, h2, h3, h4, h5, h6, h7⟩ := num_head_dispatch c (by tauto)
    rw [show dumps (JsonValue.jint n) ++ rest = c :: (cs ++ rest) from by
      simp [dumps, hic]]
    rw [parseVal_cons f c _, if_neg h1, if_neg h2, if_neg h3, if_neg h4,
        if_neg h5, if_neg h6, if_pos h7]
    rw [← List.cons_append, ← hic, parseIntChars_intChars n rest hr]
  | JsonValue.jstr s, 0, rest, hf, _ => by simp [jsize] at hf
  | JsonValue.jstr s, Nat.succ f, rest, hf, hr => by
    rw [show dumps (JsonValue.jstr s) ++ rest
        = '"' :: (escapeString s ++ ('"' :: rest)) from by simp [dumps]]
    rw [parseVal_cons f '"' _, if_neg (by decide), if_neg (by decide),
        if_neg (by decide), if_pos rfl]
    rw [parseStringBody_escape s rest]
  | JsonValue.jarr JsonList.nil, 0, rest, hf, _ => by simp [jsize, jsizeList] at hf
  | JsonValue.jarr JsonList.nil, Nat.succ f, rest, hf, hr => by
    rw [show dumps (JsonValue.jarr JsonList.nil) ++ rest = '[' :: (']' :: rest) from by
      simp [dumps, dumpsList]]
    rw [parseVal_cons f '[' _, if_neg (by decide), if_neg (by decide),
        if_neg (by decide), if_neg (by decide), if_pos rfl]
    rfl
  | JsonValue.jarr (JsonList.cons v t), 0, rest, hf, _ => by
    have := jsize_pos v
    simp [jsize, jsizeList] at hf
  | JsonValue.jarr (JsonList.cons v t), Nat.succ f, rest, hf, hr => by
    obtain ⟨c0, cs0, hdl, hc0⟩ := dumpsList_cons_head v t
    have hsz : jsizeList (JsonList.cons v t) ≤ f := by
      simp only [jsize] at hf
      omega
    rw [show dumps (JsonValue.jarr (JsonList.cons v t)) ++ rest
        = '[' :: (dumpsList (JsonList.cons v t) ++ (']' :: rest)) from by
      simp [dumps]]
    rw [parseVal_cons f '[' _, if_neg (by decide), if_neg (by decide),
        if_neg (by decide), if_neg (by decide), if_pos rfl]
    rw [hdl, List.cons_append]
    show (if c0 = ']' then some (JsonValue.jarr JsonList.nil, cs0 ++ (']' :: rest))
          else
            match parseItems f (c0 :: (cs0 ++ (']' :: rest))) with
            | some (l, r3) =>
              match r3 with
              | e :: r4 => if e = ']' then some (JsonValue.jarr l, r4) else none
              | [] => none
            | none => none) = some (JsonValue.jarr (JsonList.cons v t), rest)
    rw [if_neg hc0, ← List.cons_append, ← hdl]
    rw [parseItems_dumpsList (JsonList.cons v t) f (']' :: rest) hsz
        (by intro h; cases h)
        (by intro c cs h; cases h; decide)
        (by intro r2 h; simp at h)]
    rfl
  | JsonValue.jobj JsonObj.onil, 0, rest, hf, _ => by simp [jsize, jsizeObj] at hf
  | JsonValue.jobj JsonObj.onil, Nat.succ f, rest, hf, hr => by
    rw [show dumps (JsonValue.jobj JsonObj.onil) ++ rest
        = lbrace :: (rbrace :: rest) from by simp [dumps, dumpsObj]]
    rw [parseVal_cons f lbrace _, if_neg (by decide), if_neg (by decide),
        if_neg (by decide), if_neg (by decide), if_neg (by decide), if_pos rfl]
    rfl
  | JsonValue.jobj (JsonObj.ocons k v t), 0, rest, hf, _ => by
    have := jsize_pos v
    simp [jsize, jsizeObj] at hf
  | JsonValue.jobj (JsonObj.ocons k v t), Nat.succ f, rest, hf, hr => by
    have hsz : jsizeObj (JsonObj.ocons k v t) ≤ f := by
      simp only [jsize] at hf
      omega
    obtain ⟨cso, hdo⟩ : ∃ cso, dumpsObj (JsonObj.ocons k v t) = '"' :: cso := by
      cases t with
      | onil =>
        exact ⟨escapeString k ++ '"' :: ':' :: ' ' :: dumps v, by simp [dumpsObj]⟩
      | ocons k2 v2 t2 =>
        exact ⟨escapeString k ++ '"' :: ':' :: ' '
            :: (dumps v ++ ',' :: ' ' :: dumpsObj (JsonObj.ocons k2 v2 t2)),
          by simp [dumpsObj]⟩
    rw [show dumps (JsonValue.jobj (JsonObj.ocons k v t)) ++ rest
        = lbrace :: (dumpsObj (JsonObj.ocons k v t) ++ (rbrace :: rest)) from by
      simp [dumps]]
    rw [parseVal_cons f lbrace _, if_neg (by decide), if_neg (by decide),
        if_neg (by decide), if_neg (by decide), if_neg (by decide), if_pos rfl]
    rw [hdo, List.cons_append]
    show (if ('"' : Char) = rbrace then
            some (JsonValue.jobj JsonObj.onil, cso ++ (rbrace :: rest))
          else
            match parseFields f ('"' :: (cso ++ (rbrace :: rest))) with
            | some (o, r3) =>
              match r3 with
              | e :: r4 => if e = rbrace then some (JsonValue.jobj o, r4) else none
              | [] => none
            | none => none) = some (JsonValue.jobj (JsonObj.ocons k v t), rest)
    rw [if_neg (by decide), ← List.cons_append, ← hdo]
    rw [parseFields_dumpsObj (JsonObj.ocons k v t) f (rbrace :: rest) hsz
        (by intro h; cases h)
        (by intro c cs h; cases h; decide)
        (by intro r2 h; simp [rbrace] at h)]
    rfl
/-- Parsing the rendering of a non-empty array body followed by input
that neither starts with a digit nor with the comma-space separator
returns the body and stops at the boundary. -/
theorem parseItems_dumpsList : ∀ (l : JsonList) (fuel : Nat) (rest : List Char),
    jsizeList l ≤ fuel → l ≠ JsonList.nil →
    (∀ c cs, rest = c :: cs → isDigitChar c = false) →
    (∀ r2, rest ≠ ',' :: ' ' :: r2) →
    parseItems fuel (dumpsList l ++ rest) = some (l, rest)
  | JsonList.nil, _, _, _, hne, _, _ => absurd rfl hne
  | JsonList.cons v t, 0, rest, hf, _, _, _ => by
    have := jsize_pos v
    simp [jsizeList] at hf
  | JsonList.cons v JsonList.nil, Nat.succ f, rest, hf, _, hnd, hnc => by
    have hvf : jsize v ≤ f := by
      simp only [jsizeList] at hf
      omega
    rw [show dumpsList (JsonList.cons v JsonList.nil) = dumps v from rfl]
    rw [parseItems_succ f (dumps v ++ rest)]
    rw [parseVal_dumps v f rest hvf hnd]
    rcases rest with _ | ⟨c1, _ | ⟨c2, r2⟩⟩
    · rfl
    · rfl
    · have hcc : ¬ (c1 = ',' ∧ c2 = ' ') := by
        rintro ⟨rfl, rfl⟩
        exact hnc r2 rfl
      show (if c1 = ',' ∧ c2 = ' ' then
              match parseItems f r2 with
              | some (l, r3) => some (JsonList.cons v l, r3)
              | none => none
            else some (JsonList.cons v JsonList.nil, c1 :: c2 :: r2))
          = some (JsonList.cons v JsonList.nil, c1 :: c2 :: r2)
      rw [if_neg hcc]
  | JsonList.cons v (JsonList.cons w t2), Nat.succ f, rest, hf, _, hnd, hnc => by
    have hvf : jsize v ≤ f := by
      simp only [jsizeList] at hf
      omega
    have htf : jsizeList (JsonList.cons w t2) ≤ f := by
      simp only [jsizeList] at hf ⊢
      omega
    rw [show dumpsList (JsonList.cons v (JsonList.cons w t2)) ++ rest
        = dumps v ++ (',' :: ' ' :: (dumpsList (JsonList.cons w t2) ++ rest)) from by
      simp [dumpsList]]
    rw [parseItems_succ f _]
    rw [parseVal_dumps v f (',' :: ' ' :: (dumpsList (JsonList.cons w t2) ++ rest)) hvf
        (by intro c cs h; cases h; decide)]
    show (if (',' : Char) = ',' ∧ (' ' : Char) = ' ' then
            match parseItems f (dumpsList (JsonList.cons w t2) ++ rest) with
            | some (l, r3) => some (JsonList.cons v l, r3)
            | none => none
          else some (JsonList.cons v JsonList.nil,
                     ',' :: ' ' :: (dumpsList (JsonList.cons w t2) ++ rest)))
        = some (JsonList.cons v (JsonList.cons w t2), rest)
    rw [if_pos ⟨rfl, rfl⟩]
    rw [parseItems_dumpsList (JsonList.cons w t2) f rest htf (by simp) hnd hnc]
/-- Parsing the rendering of a non-empty object body followed by input
that neither starts with a digit nor with the comma-space separator
returns the body and stops at the boundary. -/
theorem parseFields_dumpsObj : ∀ (o : JsonObj) (fuel : Nat) (rest : List Char),
    jsizeObj o ≤ fuel → o ≠ JsonObj.onil →
    (∀ c cs, rest = c :: cs → isDigitChar c = false) →
    (∀ r2, rest ≠ ',' :: ' ' :: r2) →
    parseFields fuel (dumpsObj o ++ rest) = some (o, rest)
  | JsonObj.onil, _, _, _, hne, _, _ => absurd rfl hne
  | JsonObj.ocons k v t, 0, rest, hf, _, _, _ => by
    have := jsize_pos v
    simp [jsizeObj] at hf
  | JsonObj.ocons k v JsonObj.onil, Nat.succ f, rest, hf, _, hnd, hnc => by
    have hvf : jsize v ≤ f := by
      simp only [jsizeObj] at hf
      omega
    rw [show dumpsObj (JsonObj.ocons k v JsonObj.onil) ++ rest
        = '"' :: (escapeString k ++ ('"' :: (':' :: ' ' :: (dumps v ++ rest)))) from by
      simp [dumpsObj]]
    rw [parseFields_cons f '"' _, if_pos rfl]
    rw [parseStringBody_escape k (':' :: ' ' :: (dumps v ++ rest))]
    show (if (':' : Char) = ':' ∧ (' ' : Char) = ' ' then
            match parseVal f (dumps v ++ rest) with
            | some (v2, r3) =>
              match r3 with
              | e1 :: e2 :: r4 =>
                if e1 = ',' ∧ e2 = ' ' then
                  match parseFields f r4 with
                  | some (o, r5) => some (JsonObj.ocons k v2 o, r5)
                  | none => none
                else some (JsonObj.ocons k v2 JsonObj.onil, r3)
              | _ => some (JsonObj.ocons k v2 JsonObj.onil, r3)
            | none => none
          else none)
        = some (JsonObj.ocons k v JsonObj.onil, rest)
    rw [if_pos ⟨rfl, rfl⟩, parseVal_dumps v f rest hvf hnd]
    rcases rest with _ | ⟨e1, _ | ⟨e2, r4⟩⟩
    · rfl
    · rfl
    · have hcc : ¬ (e1 = ',' ∧ e2 = ' ') := by
        rintro ⟨rfl, rfl⟩
        exact hnc r4 rfl
      show (if e1 = ',' ∧ e2 = ' ' then
              match parseFields f r4 with
              | some (o, r5) => some (JsonObj.ocons k v o, r5)
              | none => none
            else some (JsonObj.ocons k v JsonObj.onil, e1 :: e2 :: r4))
          = some (JsonObj.ocons k v JsonObj.onil, e1 :: e2 :: r4)
      rw [if_neg hcc]
  | JsonObj.ocons k v (JsonObj.ocons k2 v2 t2), Nat.succ f, rest, hf, _, hnd, hnc => by
    have hvf : jsize v ≤ f := by
      simp only [jsizeObj] at hf
      omega
    have htf : jsizeObj (JsonObj.ocons k2 v2 t2) ≤ f := by
      simp only [jsizeObj] at hf ⊢
      omega
    rw [show dumpsObj (JsonObj.ocons k v (JsonObj.ocons k2 v2 t2)) ++ rest
        = '"' :: (escapeString k ++ ('"' :: (':' :: ' ' :: (dumps v
            ++ (',' :: ' ' :: (dumpsObj (JsonObj.ocons k2 v2 t2) ++ rest)))))) from by
      simp [dumpsObj]]
    rw [parseFields_cons f '"' _, if_pos rfl]
    rw [parseStringBody_escape k
        (':' :: ' ' :: (dumps v ++ (',' :: ' ' :: (dumpsObj (JsonObj.ocons k2 v2 t2) ++ rest))))]
    show (if (':' : Char) = ':' ∧ (' ' : Char) = ' ' then
            match parseVal f (dumps v
                ++ (',' :: ' ' :: (dumpsObj (JsonObj.ocons k2 v2 t2) ++ rest))) with
            | some (v3, r3) =>
              match r3 with
              | e1 :: e2 :: r4 =>
                if e1 = ',' ∧ e2 = ' ' then
                  match parseFields f r4 with
                  | some (o, r5) => some (JsonObj.ocons k v3 o, r5)
                  | none => none
                else some (JsonObj.ocons k v3 JsonObj.onil, r3)
              | _ => some (JsonObj.ocons k v3 JsonObj.onil, r3)
            | none => none
          else none)
        = some (JsonObj.ocons k v (JsonObj.ocons k2 v2 t2), rest)
    rw [if_pos ⟨rfl, rfl⟩]
    rw [parseVal_dumps v f
        (',' :: ' ' :: (dumpsObj (JsonObj.ocons k2 v2 t2) ++ rest)) hvf
        (by intro c cs h; cases h; decide)]
    show (if (',' : Char) = ',' ∧ (' ' : Char) = ' ' then
            match parseFields f (dumpsObj (JsonObj.ocons k2 v2 t2) ++ rest) with
            | some (o, r5) => some (JsonObj.ocons k v o, r5)
            | none => none
          else some (JsonObj.ocons k v JsonObj.onil,
                     ',' :: ' ' :: (dumpsObj (JsonObj.ocons k2 v2 t2) ++ rest)))
        = some (JsonObj.ocons k v (JsonObj.ocons k2 v2 t2), rest)
    rw [if_pos ⟨rfl, rfl⟩]
    rw [parseFields_dumpsObj (JsonObj.ocons k2 v2 t2) f rest htf (by simp) hnd hnc]
end

/-- json.loads inverts json.dumps on every JSON value of the model. -/
theorem loads_dumps (v : JsonValue) : loads (dumps v) = some v := by
  unfold loads
  have h := parseVal_dumps v ((dumps v).length + 1) []
    (by have := jsize_le_dumps v; omega)
    (by intro c cs h; cases h)
  rw [List.append_nil] at h
  rw [h]

/-- Looking up the key just written by Setting.set finds the new row. -/
theorem setting_find_set (store : List (String × List Char)) (key : String)
    (text : List Char) :
    ((key, text) :: store.filter (fun kv => kv.1 ≠ key)).find? (fun kv => kv.1 = key)
      = some (key, text) := by
  simp [List.find?]

/-! ## Claim C10 -/

/-- Claim C10: Setting.set stores non-string values JSON-encoded but
stores string values verbatim, while Setting.get always attempts JSON
parsing of the stored text; hence get after set returns the original
value for every non-string JSON value, but a string value whose text
parses as JSON of another type comes back as the parsed value, not the
original string. -/
theorem C10_setting_json (store : List (String × List Char)) (key : String) :
    (∀ v : JsonValue, v.isStr = false →
      Setting.get (Setting.set store key v) key = some v) ∧
    (∀ (s : List Char) (w : JsonValue), loads s = some w → w.isStr = false →
      Setting.get (Setting.set store key (JsonValue.jstr s)) key = some w ∧
        w ≠ JsonValue.jstr s) := by
  constructor
  · intro v hv
    have hset : Setting.set store key v
        = (key, dumps v) :: store.filter (fun kv => kv.1 ≠ key) := by
      cases v with
      | jstr s => simp [JsonValue.isStr] at hv
      | jnull => rfl
      | jbool b => rfl
      | jint n => rfl
      | jarr l => rfl
      | jobj o => rfl
    rw [hset]
    simp only [Setting.get]
    rw [setting_find_set store key (dumps v)]
    simp [loads_dumps v]
  · intro s w hl hw
    have hset : Setting.set store key (JsonValue.jstr s)
        = (key, s) :: store.filter (fun kv => kv.1 ≠ key) := rfl
    refine ⟨?_, ?_⟩
    · rw [hset]
      simp only [Setting.get]
      rw [setting_find_set store key s]
      simp [hl]
    · intro he
      rw [he] at hw
      simp [JsonValue.isStr] at hw

/-- Witness for C10_setting_json: the integer 123 round-trips, while the
stored string true comes back as the boolean true. -/
theorem C10_setting_json_witness :
    Setting.get (Setting.set [] "k" (JsonValue.jint 123)) "k"
      = some (JsonValue.jint 123) ∧
    (Setting.get (Setting.set [] "k" (JsonValue.jstr ['t', 'r', 'u', 'e'])) "k"
        = some (JsonValue.jbool true) ∧
      JsonValue.jbool true ≠ JsonValue.jstr ['t', 'r', 'u', 'e']) :=
  ⟨(C10_setting_json [] "k").1 (JsonValue.jint 123) rfl,
   (C10_setting_json [] "k").2 ['t', 'r', 'u', 'e'] (JsonValue.jbool true) rfl rfl⟩

end VideoSrv
